import Mathlib

/-!
# Verification of `confluent-connect-util`

A shallow embedding, in Lean 4, of the core of the `confluent-connect-util`
repository: the connector data model (`src/types.rs`), the configuration
validator (`src/connectors/mod.rs`), the Terraform/HCL document generator
(`src/terraform.rs`) and the document parser and structural validator
(`src/app.rs`).  Rust `HashMap<String, String>` values are modelled as
association lists (`List (String × String)`) whose `insert` replaces the
value at the first occurrence of an existing key, and the `hcl` crate's
`Object` (a `VecMap`: insertion-ordered, `insert` replaces the value of an
existing key in place) is modelled likewise over `ObjectKey`.
-/

namespace ConnectUtil

/-! ## Data model (`src/types.rs`) -/

/-- `ConnectorType` from `src/types.rs`. -/
inductive ConnectorType where
  | Source
  | Sink
deriving DecidableEq, Repr

/-- `DataFormat` from `src/types.rs`. -/
inductive DataFormat where
  | Avro
  | Json
  | JsonSr
  | Protobuf
  | Parquet
deriving DecidableEq, Repr

/-- `DataFormat::to_terraform_value` from `src/types.rs`. -/
def DataFormat.to_terraform_value : DataFormat → String
  | .Avro => "AVRO"
  | .Json => "JSON"
  | .JsonSr => "JSON_SR"
  | .Protobuf => "PROTOBUF"
  | .Parquet => "PARQUET"

/-- `ConfigField` from `src/types.rs`. -/
structure ConfigField where
  name : String
  display_name : String
  description : String
  field_type : String
  required : Bool
  default_value : Option String
  valid_values : Option (List String)
deriving DecidableEq, Repr

/-- `ConnectorDefinition` from `src/types.rs`. -/
structure ConnectorDefinition where
  name : String
  display_name : String
  connector_class : String
  connector_type : ConnectorType
  description : String
  required_configs : List ConfigField
  optional_configs : List ConfigField
  sensitive_configs : List String
deriving DecidableEq, Repr

/-- `TerraformConfigOptions` from `src/types.rs`. -/
structure TerraformConfigOptions where
  connector_name : String
  connector : ConnectorDefinition
  topics : List String
  input_data_format : Option DataFormat
  output_data_format : Option DataFormat
deriving DecidableEq, Repr

/-- `ConnectorConfig` from `src/types.rs`; the two `HashMap<String, String>`
fields are modelled as association lists. -/
structure ConnectorConfig where
  name : String
  connector_class : String
  config : List (String × String)
  sensitive_config : List (String × String)
deriving DecidableEq, Repr

/-- `ConnectUtilError` from `src/error.rs` (the two variants the core
components construct). -/
inductive ConnectUtilError where
  | Config (msg : String)
  | Terraform (msg : String)
deriving DecidableEq, Repr

/-! ## The HCL expression AST (the subset of the `hcl` crate the program
reads and writes: `Expression`, `ObjectKey`, `Body`, `Block`). -/

mutual
/-- The `hcl::Expression` variants this program constructs or matches on.
`num` carries an integer (the only numbers the program ever meets are
integral); `traversal` is a root variable plus a chain of attribute names. -/
inductive Expression where
  | str (s : String)
  | num (n : Int)
  | bool (b : Bool)
  | array (elems : List Expression)
  | object (entries : List (ObjectKey × Expression))
  | variable (name : String)
  | funcCall (name : String) (args : List Expression)
  | traversal (root : String) (attrs : List String)

/-- `hcl::ObjectKey`: a bare identifier or an arbitrary expression key. -/
inductive ObjectKey where
  | identifier (s : String)
  | expression (e : Expression)
end

mutual
/-- Structural equality on expressions, mirroring the derived `PartialEq`
of `hcl::Expression`. -/
def expBeq : Expression → Expression → Bool
  | .str a, .str b => a == b
  | .num a, .num b => a == b
  | .bool a, .bool b => a == b
  | .array as, .array bs => expListBeq as bs
  | .object es, .object fs => entryListBeq es fs
  | .variable a, .variable b => a == b
  | .funcCall n as, .funcCall m bs => n == m && expListBeq as bs
  | .traversal r as, .traversal s bs => r == s && as == bs
  | _, _ => false
termination_by structural a => a

/-- Structural equality on expression lists. -/
def expListBeq : List Expression → List Expression → Bool
  | [], [] => true
  | a :: as, b :: bs => expBeq a b && expListBeq as bs
  | _, _ => false
termination_by structural a => a

/-- Structural equality on object keys, mirroring the derived `PartialEq`
of `hcl::ObjectKey`. -/
def keyBeq : ObjectKey → ObjectKey → Bool
  | .identifier a, .identifier b => a == b
  | .expression a, .expression b => expBeq a b
  | _, _ => false
termination_by structural a => a

/-- Structural equality on object entry lists. -/
def entryListBeq : List (ObjectKey × Expression) → List (ObjectKey × Expression) → Bool
  | [], [] => true
  | (k, v) :: es, (l, w) :: fs => keyBeq k l && expBeq v w && entryListBeq es fs
  | _, _ => false
termination_by structural a => a
end

mutual
theorem expBeq_refl : (a : Expression) → expBeq a a = true
  | .str a => by simp [expBeq]
  | .num a => by simp [expBeq]
  | .bool a => by simp [expBeq]
  | .array as => by simpa [expBeq] using expListBeq_refl as
  | .object es => by simpa [expBeq] using entryListBeq_refl es
  | .variable a => by simp [expBeq]
  | .funcCall n as => by simpa [expBeq] using expListBeq_refl as
  | .traversal r as => by simp [expBeq]
termination_by structural a => a

theorem expListBeq_refl : (as : List Expression) → expListBeq as as = true
  | [] => by simp [expListBeq]
  | a :: as => by
      simp only [expListBeq, Bool.and_eq_true]
      exact ⟨expBeq_refl a, expListBeq_refl as⟩
termination_by structural as => as

theorem keyBeq_refl : (k : ObjectKey) → keyBeq k k = true
  | .identifier a => by simp [keyBeq]
  | .expression e => by simpa [keyBeq] using expBeq_refl e
termination_by structural k => k

theorem entryListBeq_refl : (es : List (ObjectKey × Expression)) →
    entryListBeq es es = true
  | [] => by simp [entryListBeq]
  | (k, v) :: es => by
      simp only [entryListBeq, Bool.and_eq_true]
      exact ⟨⟨keyBeq_refl k, expBeq_refl v⟩, entryListBeq_refl es⟩
termination_by structural es => es
end

mutual
theorem expBeq_eq : (a b : Expression) → expBeq a b = true → a = b
  | .str a, b, h => by
      cases b <;> simp [expBeq, beq_iff_eq] at h
      rw [h]
  | .num a, b, h => by
      cases b <;> simp [expBeq, beq_iff_eq] at h
      rw [h]
  | .bool a, b, h => by
      cases b <;> simp [expBeq, beq_iff_eq] at h
      rw [h]
  | .array as, b, h => by
      cases b <;> simp [expBeq] at h
      case array bs => rw [expListBeq_eq as bs h]
  | .object es, b, h => by
      cases b <;> simp [expBeq] at h
      case object fs => rw [entryListBeq_eq es fs h]
  | .variable a, b, h => by
      cases b <;> simp [expBeq, beq_iff_eq] at h
      rw [h]
  | .funcCall n as, b, h => by
      cases b <;> simp [expBeq, Bool.and_eq_true, beq_iff_eq] at h
      case funcCall m bs => rw [h.1, expListBeq_eq as bs h.2]
  | .traversal r as, b, h => by
      cases b <;> simp [expBeq, Bool.and_eq_true, beq_iff_eq] at h
      case traversal s bs => rw [h.1, h.2]
termination_by structural a => a

theorem expListBeq_eq : (as bs : List Expression) → expListBeq as bs = true → as = bs
  | [], [], _ => rfl
  | [], _ :: _, h => by simp [expListBeq] at h
  | _ :: _, [], h => by simp [expListBeq] at h
  | a :: as, b :: bs, h => by
      simp only [expListBeq, Bool.and_eq_true] at h
      rw [expBeq_eq a b h.1, expListBeq_eq as bs h.2]
termination_by structural as => as

theorem keyBeq_eq : (k l : ObjectKey) → keyBeq k l = true → k = l
  | .identifier a, l, h => by
      cases l <;> simp [keyBeq, beq_iff_eq] at h
      rw [h]
  | .expression e, l, h => by
      cases l <;> simp [keyBeq] at h
      case expression f => rw [expBeq_eq e f h]
termination_by structural k => k

theorem entryListBeq_eq : (es fs : List (ObjectKey × Expression)) →
    entryListBeq es fs = true → es = fs
  | [], [], _ => rfl
  | [], _ :: _, h => by simp [entryListBeq] at h
  | _ :: _, [], h => by simp [entryListBeq] at h
  | (k, v) :: es, (l, w) :: fs, h => by
      simp only [entryListBeq, Bool.and_eq_true] at h
      rw [keyBeq_eq k l h.1.1, expBeq_eq v w h.1.2, entryListBeq_eq es fs h.2]
termination_by structural es => es
end

/-- `keyBeq` decides equality of object keys. -/
theorem keyBeq_iff (k l : ObjectKey) : keyBeq k l = true ↔ k = l :=
  ⟨keyBeq_eq k l, fun h => h ▸ keyBeq_refl k⟩

theorem keyBeq_eq_false_iff (k l : ObjectKey) : keyBeq k l = false ↔ k ≠ l := by
  rw [← Bool.not_eq_true, not_iff_not]
  exact keyBeq_iff k l

/-! ## HCL objects

`hcl::Object` is a `VecMap`: an insertion-ordered key-value sequence whose
`insert` replaces the value of the first (unique) entry with an equal key,
keeping the stored key and its position, and otherwise appends. -/

/-- An `hcl::Object<ObjectKey, Expression>`. -/
abbrev Object := List (ObjectKey × Expression)

/-- `VecMap::insert`: replace the value at an existing key (keeping the
stored key and position) or append a fresh entry. -/
def objInsert : Object → ObjectKey → Expression → Object
  | [], k, v => [(k, v)]
  | (k', v') :: rest, k, v =>
      if keyBeq k' k then (k', v) :: rest
      else (k', v') :: objInsert rest k v

/-- `VecMap` lookup: the value of the first entry with an equal key. -/
def objLookup : Object → ObjectKey → Option Expression
  | [], _ => none
  | (k', v) :: rest, k => if keyBeq k' k then some v else objLookup rest k

/-- A sequence of `insert` calls, first to last. -/
def insertAll (obj : Object) (entries : List (ObjectKey × Expression)) : Object :=
  entries.foldl (fun o p => objInsert o p.1 p.2) obj

/-! ## HCL bodies and blocks -/

mutual
/-- One element of an `hcl::Body`: an attribute or a nested block. -/
inductive Structure where
  | attribute (key : String) (value : Expression)
  | block (b : Block)

/-- An `hcl::Block`: identifier, labels, and a body of structures. -/
inductive Block where
  | mk (identifier : String) (labels : List String) (body : List Structure)
end

/-- An `hcl::Body` is its ordered list of structures. -/
abbrev Body := List Structure

def Block.identifier : Block → String
  | .mk i _ _ => i

def Block.labels : Block → List String
  | .mk _ l _ => l

def Block.body : Block → Body
  | .mk _ _ b => b

/-- `Body::attributes()`: the attributes of a body, in order. -/
def bodyAttributes (b : Body) : List (String × Expression) :=
  b.filterMap fun s =>
    match s with
    | .attribute k v => some (k, v)
    | .block _ => none

/-- `Body::blocks()`: the nested blocks of a body, in order. -/
def bodyBlocks (b : Body) : List Block :=
  b.filterMap fun s =>
    match s with
    | .block bl => some bl
    | .attribute _ _ => none

/-! ## Identifiers (`hcl::Identifier`)

`Identifier::new` accepts a non-empty string whose first character is a
letter or `_` and whose remaining characters are letters, digits, `_` or
`-` (the `hcl` crate uses Unicode `XID` classes; every identifier this
program handles is ASCII, for which the two notions agree). -/

/-- Rust `str::contains('.')` (defined over the character data so that it
evaluates by reduction). -/
def strContains (s : String) (c : Char) : Bool := s.data.contains c

/-- Rust `str::split(c)` over the character data: splitting an empty
string yields `[""]`, and every separator starts a new piece. -/
def splitOnChar (c : Char) : List Char → List (List Char)
  | [] => [[]]
  | x :: xs =>
      match splitOnChar c xs with
      | [] => if x = c then [[], []] else [[x]]
      | y :: ys => if x = c then [] :: y :: ys else (x :: y) :: ys

/-- Rust `str::split('.')` as a list of strings. -/
def splitDots (s : String) : List String :=
  (splitOnChar '.' s.data).map (fun l => String.mk l)

/-- Rust `str::replace('-', "_")`: the pattern is a single character, so
this is a character-wise map. -/
def replaceDashes (s : String) : String :=
  String.mk (s.data.map (fun c => if c = '-' then '_' else c))

def isIdentStart (c : Char) : Bool := c.isAlpha || c == '_'

def isIdentCont (c : Char) : Bool := c.isAlphanum || c == '_' || c == '-'

/-- Validity test behind `hcl::Identifier::new`. -/
def isValidHclIdent (s : String) : Bool :=
  match s.data with
  | [] => false
  | c :: cs => isIdentStart c && cs.all isIdentCont

/-- Character stream of `hcl::Identifier::sanitized`: an invalid character
becomes `_`, and a leading valid-continuation character gets `_` prepended. -/
def sanitizeChars : Nat → List Char → List Char
  | _, [] => []
  | i, c :: cs =>
      (if i = 0 then
        if isIdentStart c then [c]
        else if isIdentCont c then ['_', c]
        else ['_']
      else if isIdentCont c then [c] else ['_']) ++ sanitizeChars (i + 1) cs

/-- `hcl::Identifier::sanitized`. -/
def sanitizeIdent (s : String) : String :=
  if s.data.isEmpty then "_" else ⟨sanitizeChars 0 s.data⟩

/-! ## Document generator (`src/terraform.rs`) -/

/-- `TerraformGenerator::make_object_key`: a key containing `.` becomes a
quoted string-expression key; otherwise a bare identifier (sanitized if
`Identifier::new` would reject it). -/
def make_object_key (s : String) : ObjectKey :=
  if strContains s '.' then ObjectKey.expression (Expression.str s)
  else ObjectKey.identifier (if isValidHclIdent s then s else sanitizeIdent s)

/-- `TerraformGenerator::data_format_to_expression`: split the wire value
on `.`; with at least two parts and a valid root, build a traversal,
otherwise fall back to a literal string. -/
def data_format_to_expression (format : DataFormat) : Expression :=
  let terraform_value := format.to_terraform_value
  match splitDots terraform_value with
  | p0 :: p1 :: rest =>
      if isValidHclIdent p0 then Expression.traversal p0 (p1 :: rest)
      else Expression.str terraform_value
  | _ => Expression.str terraform_value

/-- The key of `ObjectKey::Identifier(Identifier::new(name))` for a
sensitive-config name, or the generation error `Identifier::new` produces;
names containing `.` become string-expression keys. -/
def sensitiveKeyFor (name : String) : Except ConnectUtilError ObjectKey :=
  if strContains name '.' then .ok (ObjectKey.expression (Expression.str name))
  else if isValidHclIdent name then .ok (ObjectKey.identifier name)
  else .error (.Terraform ("Invalid identifier \x27" ++ name ++ "\x27: invalid identifier"))

/-- The `config_sensitive` object: one placeholder entry per sensitive
config name, inserted in order. -/
def config_sensitive_obj (names : List String) : Except ConnectUtilError Object :=
  names.foldlM
    (fun obj name => do
      let key ← sensitiveKeyFor name
      pure (objInsert obj key (Expression.str "<REPLACE_WITH_ACTUAL_VALUE>")))
    []

/-- The first four inserts into `config_nonsensitive_obj`. -/
def baseNonsensitiveEntries (options : TerraformConfigOptions) :
    List (ObjectKey × Expression) :=
  [(make_object_key "connector.class", Expression.str options.connector.connector_class),
   (make_object_key "name", Expression.str options.connector_name),
   (make_object_key "kafka.auth.mode", Expression.str "SERVICE_ACCOUNT"),
   (make_object_key "kafka.deployment.type", Expression.str "DEDICATED")]

/-- The `join(",", [<topics>])` function-call expression.  The source wraps
`Identifier::new("join")` in an error check; `"join"` is a valid identifier
(`isValidHclIdent_join` below), so that check never fires. -/
def joinTopicsExpr (topics : List String) : Expression :=
  Expression.funcCall "join"
    [Expression.str ",", Expression.array (topics.map Expression.str)]

/-- The topics-section inserts of `generate_connector_config`, in order:
empty topics emit a placeholder (`topics` for sinks, `topic.prefix` for
sources); non-empty topics emit the `topic.prefix` placeholder first when
the definition requires `topic.prefix`, then the `join` expression. -/
def topicsEntries (options : TerraformConfigOptions) :
    List (ObjectKey × Expression) :=
  if options.topics.isEmpty then
    if options.connector.connector_type = ConnectorType.Sink then
      [(make_object_key "topics", Expression.str "<REPLACE_WITH_TOPIC_NAME>")]
    else
      [(make_object_key "topic.prefix", Expression.str "<REPLACE_WITH_TOPIC_PREFIX>")]
  else
    (if options.connector.required_configs.any (fun config => config.name == "topic.prefix") then
      [(make_object_key "topic.prefix", Expression.str "<REPLACE_WITH_TOPIC_PREFIX>")]
    else [])
    ++ [(make_object_key "topics", joinTopicsExpr options.topics)]

/-- The inserts of
`TerraformGenerator::add_connector_specific_config_to_object`, in order:
a closed dispatch on the definition name; unknown names insert nothing.
(The Rust function returns `Result` but has no failure path.) -/
def connectorSpecificEntries (connector_def : ConnectorDefinition)
    (options : TerraformConfigOptions) : List (ObjectKey × Expression) :=
  match connector_def.name with
  | "PostgresCdcSourceV2" =>
      [(make_object_key "database.hostname", Expression.str "<REPLACE_WITH_DATABASE_HOST>"),
       (make_object_key "database.port", Expression.str "5432"),
       (make_object_key "database.user", Expression.str "<REPLACE_WITH_DATABASE_USER>"),
       (make_object_key "database.dbname", Expression.str "<REPLACE_WITH_DATABASE_NAME>"),
       (make_object_key "database.sslmode", Expression.str "require"),
       (make_object_key "publication.name", Expression.str "dbz_publication"),
       (make_object_key "publication.autocreate.mode", Expression.str "filtered"),
       (make_object_key "snapshot.mode", Expression.str "initial"),
       (make_object_key "tombstones.on.delete", Expression.str "true"),
       (make_object_key "plugin.name", Expression.str "pgoutput"),
       (make_object_key "slot.name", Expression.str "dbz"),
       (make_object_key "poll.interval.ms", Expression.str "1000"),
       (make_object_key "max.batch.size", Expression.str "1000"),
       (make_object_key "event.processing.failure.handling.mode", Expression.str "fail"),
       (make_object_key "heartbeat.interval.ms", Expression.str "0"),
       (make_object_key "provide.transaction.metadata", Expression.str "false"),
       (make_object_key "decimal.handling.mode", Expression.str "precise"),
       (make_object_key "binary.handling.mode", Expression.str "bytes"),
       (make_object_key "time.precision.mode", Expression.str "adaptive"),
       (make_object_key "cleanup.policy", Expression.str "delete"),
       (make_object_key "hstore.handling.mode", Expression.str "json"),
       (make_object_key "interval.handling.mode", Expression.str "numeric"),
       (make_object_key "schema.refresh.mode", Expression.str "columns_diff"),
       (make_object_key "after.state.only", Expression.str "false"),
       (make_object_key "output.key.format", data_format_to_expression DataFormat.Avro)]
  | "MySqlCdcSourceV2" =>
      [(make_object_key "database.server.name", Expression.str "<REPLACE_WITH_SERVER_NAME>"),
       (make_object_key "database.ssl.mode", Expression.str "preferred"),
       (make_object_key "snapshot.mode", Expression.str "initial"),
       (make_object_key "binlog.buffer.size", Expression.str "8192"),
       (make_object_key "max.batch.size", Expression.str "2048"),
       (make_object_key "max.queue.size", Expression.str "8192"),
       (make_object_key "poll.interval.ms", Expression.str "1000"),
       (make_object_key "connect.timeout.ms", Expression.str "30000"),
       (make_object_key "socket.timeout.ms", Expression.str "30000"),
       (make_object_key "heartbeat.interval.ms", Expression.str "0"),
       (make_object_key "provide.transaction.metadata", Expression.str "false"),
       (make_object_key "decimal.handling.mode", Expression.str "precise"),
       (make_object_key "bigint.unsigned.handling.mode", Expression.str "long"),
       (make_object_key "binary.handling.mode", Expression.str "bytes"),
       (make_object_key "time.precision.mode", Expression.str "adaptive"),
       (make_object_key "cleanup.policy", Expression.str "delete"),
       (make_object_key "schema.refresh.mode", Expression.str "columns_diff"),
       (make_object_key "after.state.only", Expression.str "false"),
       (make_object_key "output.key.format", data_format_to_expression DataFormat.Avro)]
  | "S3_SINK" =>
      [(make_object_key "s3.bucket.name", Expression.str "<REPLACE_WITH_BUCKET_NAME>"),
       (make_object_key "s3.wan.mode", Expression.str "false"),
       (make_object_key "input.data.format",
        data_format_to_expression (options.input_data_format.getD DataFormat.Avro)),
       (make_object_key "output.data.format",
        data_format_to_expression (options.output_data_format.getD DataFormat.Parquet)),
       (make_object_key "topics.dir", Expression.str "<REPLACE_WITH_TOPICS_DIR>"),
       (make_object_key "path.format", Expression.str "\x27effective_date\x27=YYYY-MM-dd"),
       (make_object_key "time.interval", Expression.str "HOURLY"),
       (make_object_key "rotate.schedule.interval.ms", Expression.str "3600000"),
       (make_object_key "rotate.interval.ms", Expression.str "3600000"),
       (make_object_key "flush.size", Expression.str "100000"),
       (make_object_key "compression.codec", Expression.str "PARQUET - gzip"),
       (make_object_key "s3.compression.level", Expression.str "6"),
       (make_object_key "s3.part.size", Expression.str "5242880"),
       (make_object_key "kafka.max.partition.validation.disable", Expression.str "false")]
  | "PostgreSQLSource" =>
      [(make_object_key "connection.host", Expression.str "<REPLACE_WITH_DB_HOST>"),
       (make_object_key "connection.port", Expression.str "5432"),
       (make_object_key "connection.user", Expression.str "<REPLACE_WITH_DB_USER>"),
       (make_object_key "db.name", Expression.str "<REPLACE_WITH_DB_NAME>"),
       (make_object_key "ssl.mode", Expression.str "prefer"),
       (make_object_key "table.whitelist", Expression.str "<REPLACE_WITH_TABLE_LIST>"),
       (make_object_key "mode", Expression.str "timestamp"),
       (make_object_key "poll.interval.ms", Expression.str "5000"),
       (make_object_key "db.timezone", Expression.str "UTC"),
       (make_object_key "table.types", Expression.str "TABLE")]
  | "PostgresSink" =>
      [(make_object_key "connection.host", Expression.str "<REPLACE_WITH_DB_HOST>"),
       (make_object_key "connection.port", Expression.str "5432"),
       (make_object_key "connection.user", Expression.str "<REPLACE_WITH_DB_USER>"),
       (make_object_key "db.name", Expression.str "<REPLACE_WITH_DB_NAME>"),
       (make_object_key "ssl.mode", Expression.str "prefer"),
       (make_object_key "insert.mode", Expression.str "UPSERT"),
       (make_object_key "table.name.format", Expression.str "<REPLACE_WITH_TABLE_FORMAT>"),
       (make_object_key "table.types", Expression.str "TABLE"),
       (make_object_key "db.timezone", Expression.str "UTC"),
       (make_object_key "pk.mode", Expression.str "record_value"),
       (make_object_key "pk.fields", Expression.str "<REPLACE_WITH_PK_FIELDS>"),
       (make_object_key "auto.create", Expression.str "false"),
       (make_object_key "auto.evolve", Expression.str "false"),
       (make_object_key "batch.sizes", Expression.str "5000"),
       (make_object_key "max.poll.records", Expression.str "2500")]
  | "MySQLSource" =>
      [(make_object_key "connection.host", Expression.str "<REPLACE_WITH_DB_HOST>"),
       (make_object_key "connection.port", Expression.str "3306"),
       (make_object_key "connection.user", Expression.str "<REPLACE_WITH_DB_USER>"),
       (make_object_key "db.name", Expression.str "<REPLACE_WITH_DB_NAME>"),
       (make_object_key "ssl.mode", Expression.str "preferred"),
       (make_object_key "table.whitelist", Expression.str "<REPLACE_WITH_TABLE_LIST>"),
       (make_object_key "mode", Expression.str "timestamp"),
       (make_object_key "poll.interval.ms", Expression.str "5000"),
       (make_object_key "db.timezone", Expression.str "UTC"),
       (make_object_key "table.types", Expression.str "TABLE")]
  | "MySQLSink" =>
      [(make_object_key "connection.host", Expression.str "<REPLACE_WITH_DB_HOST>"),
       (make_object_key "connection.port", Expression.str "3306"),
       (make_object_key "connection.user", Expression.str "<REPLACE_WITH_DB_USER>"),
       (make_object_key "db.name", Expression.str "<REPLACE_WITH_DB_NAME>"),
       (make_object_key "ssl.mode", Expression.str "preferred"),
       (make_object_key "insert.mode", Expression.str "UPSERT"),
       (make_object_key "table.name.format", Expression.str "<REPLACE_WITH_TABLE_FORMAT>"),
       (make_object_key "table.types", Expression.str "TABLE"),
       (make_object_key "db.timezone", Expression.str "UTC"),
       (make_object_key "pk.mode", Expression.str "record_value"),
       (make_object_key "pk.fields", Expression.str "<REPLACE_WITH_PK_FIELDS>"),
       (make_object_key "auto.create", Expression.str "false"),
       (make_object_key "auto.evolve", Expression.str "false"),
       (make_object_key "batch.sizes", Expression.str "5000"),
       (make_object_key "max.poll.records", Expression.str "2500")]
  | _ => []

/-- The final two inserts of `generate_connector_config`: the output data
format (defaulting to Avro when `options.output_data_format` is `None`)
and `tasks.max`. -/
def outputFormatEntries (options : TerraformConfigOptions) :
    List (ObjectKey × Expression) :=
  [(make_object_key "output.data.format",
    data_format_to_expression (options.output_data_format.getD DataFormat.Avro)),
   (make_object_key "tasks.max", Expression.str "1")]

/-- The `config_nonsensitive` object of `generate_connector_config`: the
exact sequence of `Object::insert` calls the source performs, applied to
the empty object. -/
def config_nonsensitive_obj (options : TerraformConfigOptions) : Object :=
  insertAll []
    (baseNonsensitiveEntries options ++ topicsEntries options
      ++ connectorSpecificEntries options.connector options
      ++ outputFormatEntries options)

/-- The fixed `lifecycle` block of the generated resource. -/
def lifecycleBlock : Block :=
  Block.mk "lifecycle" []
    [Structure.attribute "ignore_changes" (Expression.array
      [Expression.str "config_nonsensitive[\"kafka.deployment.type\"]",
       Expression.str "config_nonsensitive[\"kafka.max.partition.validation.disable\"]",
       Expression.str "config_nonsensitive[\"kafka.max.partition.validation.enable\"]",
       Expression.str "config_nonsensitive[\"kafka.max.partition.validation\"]"])]

/-- `TerraformGenerator::generate_connector_config` from
`src/terraform.rs`, producing the generated document as a parsed `Body`
(the serialization to text by `hcl::to_string` and the re-parse by
`hcl::from_str` — both in the external `hcl` crate, out of the spec's
scope — are modelled as the identity on the `Body`; `hcl::to_string`
never fails on this tree, and `Variable::new("var")` always succeeds,
see `isValidHclIdent_var` below).  Generation fails exactly when a
dot-free sensitive-config name is not a valid identifier. -/
def generate_connector_config (options : TerraformConfigOptions) :
    Except ConnectUtilError Body := do
  let resource_name := replaceDashes options.connector_name
  let config_sensitive ← config_sensitive_obj options.connector.sensitive_configs
  let config_nonsensitive := config_nonsensitive_obj options
  pure [Structure.block (Block.mk "resource" ["confluent_connector", resource_name]
    [Structure.attribute "status" (Expression.traversal "var" ["status"]),
     Structure.block (Block.mk "environment" []
       [Structure.attribute "id" (Expression.traversal "var" ["environment_id"])]),
     Structure.block (Block.mk "kafka_cluster" []
       [Structure.attribute "id" (Expression.traversal "var" ["kafka_cluster", "id"])]),
     Structure.attribute "config_sensitive" (Expression.object config_sensitive),
     Structure.attribute "config_nonsensitive" (Expression.object config_nonsensitive),
     Structure.block lifecycleBlock])]

/-! ## Document parser (`src/app.rs`) -/

/-- A Rust `HashMap<String, String>` modelled as an association list:
`insert` replaces the value at the first occurrence of an existing key and
otherwise appends. -/
def mapInsert : List (String × String) → String → String → List (String × String)
  | [], k, v => [(k, v)]
  | (k', v') :: rest, k, v =>
      if k' = k then (k', v) :: rest
      else (k', v') :: mapInsert rest k v

/-- `HashMap::get`. -/
def lookupMap : List (String × String) → String → Option String
  | [], _ => none
  | (k', v) :: rest, k => if k' = k then some v else lookupMap rest k

/-- `HashMap::contains_key`. -/
def containsKey (m : List (String × String)) (k : String) : Bool :=
  (lookupMap m k).isSome

/-- Models `ObjectKey::to_string()` (the `Display` instance of the `hcl`
crate): an identifier key displays as its name; an expression key displays
the expression, which for the string-literal, boolean, number and variable
leaves is the raw text.  (Composite expression keys never occur in a
document this program generates, and the program's own tests pin the
string-literal behavior: a parsed `"connector.class"` key displays as
`connector.class`.) -/
def keyToString : ObjectKey → String
  | .identifier s => s
  | .expression (.str s) => s
  | .expression (.num n) => toString n
  | .expression (.bool b) => if b then "true" else "false"
  | .expression (.variable v) => v
  | .expression _ => "<expression>"

mutual
/-- `ConnectUtilApp::extract_string_from_expression` from `src/app.rs`. -/
def extract_string_from_expression : Expression → Option String
  | .str s => some s
  | .variable var => some ("var." ++ var)
  | .funcCall name (.array arr :: _) =>
      if name == "join" then
        some (String.intercalate ", " (extractStrings arr))
      else some (name ++ "(...)")
  | .funcCall name _ => some (name ++ "(...)")
  | .array arr => some ("[" ++ String.intercalate ", " (extractStrings arr) ++ "]")
  | .num n => some (toString n)
  | .bool b => some (if b then "true" else "false")
  | _ => none
termination_by structural e => e

/-- The `filter_map` the source applies to array elements: extract each,
discarding failures. -/
def extractStrings : List Expression → List String
  | [] => []
  | e :: es =>
      match extract_string_from_expression e with
      | some s => s :: extractStrings es
      | none => extractStrings es
termination_by structural es => es
end

/-- `ConnectUtilApp::extract_map_from_expression`: defined only on object
expressions; entries whose value fails to extract are dropped. -/
def extract_map_from_expression : Expression → Option (List (String × String)) :=
  fun expr =>
    match expr with
    | .object entries =>
        some (entries.foldl
          (fun result p =>
            match extract_string_from_expression p.2 with
            | some str_value => mapInsert result (keyToString p.1) str_value
            | none => result)
          [])
    | _ => none

/-- The three `&mut` outputs of
`ConnectUtilApp::extract_config_from_block`. -/
structure ExtractState where
  connector_class : String
  config_nonsensitive : List (String × String)
  config_sensitive : List (String × String)
deriving DecidableEq, Repr

/-- The body of the `for (key, value) in map` loop for a
`config_nonsensitive` attribute: record the `connector.class` value as
it passes and insert the pair into the non-sensitive map. -/
def nonsensFoldStep (acc : String × List (String × String))
    (p : String × String) : String × List (String × String) :=
  ((if p.1 == "connector.class" then p.2 else acc.1), mapInsert acc.2 p.1 p.2)

/-- One step of the attribute loop of
`ConnectUtilApp::extract_config_from_block`. -/
def extractAttrStep (st : ExtractState) (attr : String × Expression) :
    ExtractState :=
  if attr.1 == "config_nonsensitive" then
    match extract_map_from_expression attr.2 with
    | some map =>
        let r := map.foldl nonsensFoldStep
          (st.connector_class, st.config_nonsensitive)
        { st with connector_class := r.1, config_nonsensitive := r.2 }
    | none => st
  else if attr.1 == "config_sensitive" then
    match extract_map_from_expression attr.2 with
    | some map =>
        { st with config_sensitive :=
            map.foldl (fun m p => mapInsert m p.1 p.2) st.config_sensitive }
    | none => st
  else st

/-- `ConnectUtilApp::extract_config_from_block` from `src/app.rs`: scan the
body's attributes; a `config_nonsensitive` object contributes its entries
(recording the `connector.class` value as it passes) and a
`config_sensitive` object contributes to the sensitive map. -/
def extract_config_from_block (body : Body) : ExtractState :=
  (bodyAttributes body).foldl extractAttrStep ⟨"", [], []⟩

/-- One step of the block loop in
`ConnectUtilApp::parse_terraform_configs`: a `resource` block labelled
`confluent_connector` with at least two labels, or a legacy `module`
block, yields a `ConnectorConfig` when a non-empty `connector.class` was
extracted; every other block yields nothing. -/
def configFromBlock (bl : Block) : Option ConnectorConfig :=
  if bl.identifier == "resource" then
    match bl.labels with
    | l0 :: l1 :: _ =>
        if l0 == "confluent_connector" then
          if (extract_config_from_block bl.body).connector_class = "" then none
          else some ⟨l1,
            (extract_config_from_block bl.body).connector_class,
            (extract_config_from_block bl.body).config_nonsensitive,
            (extract_config_from_block bl.body).config_sensitive⟩
        else none
    | _ => none
  else if bl.identifier == "module" then
    if (extract_config_from_block bl.body).connector_class = "" then none
    else some ⟨(match bl.labels with | l :: _ => l | [] => ""),
      (extract_config_from_block bl.body).connector_class,
      (extract_config_from_block bl.body).config_nonsensitive,
      (extract_config_from_block bl.body).config_sensitive⟩
  else none

/-- `ConnectUtilApp::parse_terraform_configs` from `src/app.rs`.  The
external `hcl::from_str` step is modelled by the `Except String Body`
argument: a parse failure is wrapped into a `Config` error, and a parsed
body is scanned without any further failure. -/
def parse_terraform_configs (parsed : Except String Body) :
    Except ConnectUtilError (List ConnectorConfig) :=
  match parsed with
  | .error e => .error (.Config ("Failed to parse Terraform file: " ++ e))
  | .ok body => .ok ((bodyBlocks body).filterMap configFromBlock)

/-! ## Structural validator (`src/app.rs`) -/

def missingStatusMsg (resource_name : String) : String :=
  "❌ Resource \x27" ++ resource_name ++ "\x27 missing \x27status\x27 field"

def missingEnvironmentMsg (resource_name : String) : String :=
  "❌ Resource \x27" ++ resource_name
    ++ "\x27 missing \x27environment \x7b id = ... \x7d\x27 block"

def environmentIdMsg (resource_name : String) (environment_attrs : List String) : String :=
  "❌ Resource \x27" ++ resource_name
    ++ "\x27 environment block must have \x27id\x27 attribute (found: "
    ++ (if environment_attrs.isEmpty then "none"
        else String.intercalate ", " environment_attrs)
    ++ ")"

def missingKafkaClusterMsg (resource_name : String) : String :=
  "❌ Resource \x27" ++ resource_name
    ++ "\x27 missing \x27kafka_cluster \x7b id = ... \x7d\x27 block"

def kafkaClusterIdMsg (resource_name : String) : String :=
  "❌ Resource \x27" ++ resource_name
    ++ "\x27 kafka_cluster block must have \x27id\x27 attribute"

def missingConfigSensitiveMsg (resource_name : String) : String :=
  "❌ Resource \x27" ++ resource_name ++ "\x27 missing \x27config_sensitive\x27 attribute"

def missingConfigNonsensitiveMsg (resource_name : String) : String :=
  "❌ Resource \x27" ++ resource_name ++ "\x27 missing \x27config_nonsensitive\x27 attribute"

def noResourcesMsg : String :=
  "❌ No \x27confluent_connector\x27 resources found in file"

/-- The `has_status` scan of `validate_resource_block`. -/
def hasStatusAttr (body : Body) : Bool :=
  (bodyAttributes body).any (fun a => a.1 == "status")

/-- The `has_config_sensitive` scan of `validate_resource_block`. -/
def hasConfigSensitiveAttr (body : Body) : Bool :=
  (bodyAttributes body).any (fun a => a.1 == "config_sensitive")

/-- The `has_config_nonsensitive` scan of `validate_resource_block`. -/
def hasConfigNonsensitiveAttr (body : Body) : Bool :=
  (bodyAttributes body).any (fun a => a.1 == "config_nonsensitive")

/-- The first `environment` nested block, if any (the source loop breaks
at the first match). -/
def envBlockOf (body : Body) : Option Block :=
  (bodyBlocks body).find? (fun bl => bl.identifier == "environment")

/-- The first `kafka_cluster` nested block, if any. -/
def kafkaBlockOf (body : Body) : Option Block :=
  (bodyBlocks body).find? (fun bl => bl.identifier == "kafka_cluster")

/-- The collected `environment_attrs` key list. -/
def envAttrKeys (bl : Block) : List String :=
  (bodyAttributes bl.body).map Prod.fst

/-- Whether a nested block carries an `id` attribute. -/
def blockHasIdAttr (bl : Block) : Bool :=
  (bodyAttributes bl.body).any (fun a => a.1 == "id")

/-- `ConnectUtilApp::validate_resource_block` from `src/app.rs`: the fixed
checklist, in source order, returning the first failure. -/
def validate_resource_block (body : Body) (resource_name : String) :
    Except ConnectUtilError Unit :=
  if !(hasStatusAttr body) then
    .error (.Config (missingStatusMsg resource_name))
  else
    match envBlockOf body with
    | none => .error (.Config (missingEnvironmentMsg resource_name))
    | some environment_block =>
        if !((envAttrKeys environment_block).any fun k => k == "id") then
          .error (.Config (environmentIdMsg resource_name (envAttrKeys environment_block)))
        else
          match kafkaBlockOf body with
          | none => .error (.Config (missingKafkaClusterMsg resource_name))
          | some kafka_cluster_block =>
              if !(blockHasIdAttr kafka_cluster_block) then
                .error (.Config (kafkaClusterIdMsg resource_name))
              else if !(hasConfigSensitiveAttr body) then
                .error (.Config (missingConfigSensitiveMsg resource_name))
              else if !(hasConfigNonsensitiveAttr body) then
                .error (.Config (missingConfigNonsensitiveMsg resource_name))
              else .ok ()

/-- Whether a block is a `confluent_connector` resource declaration with
at least two labels (the match condition of both block loops). -/
def isConnectorResourceBlock (bl : Block) : Bool :=
  bl.identifier == "resource" &&
    match bl.labels with
    | l0 :: _ :: _ => l0 == "confluent_connector"
    | _ => false

/-- The block loop of `ConnectUtilApp::validate_terraform_structure`: each
matching `confluent_connector` resource is counted and validated; the `?`
operator propagates the first failing block's error immediately. -/
def validateStructBlocks : List Block → Nat → Except ConnectUtilError Nat
  | [], connector_count => .ok connector_count
  | bl :: rest, connector_count =>
      if bl.identifier == "resource" then
        match bl.labels with
        | l0 :: l1 :: _ =>
            if l0 == "confluent_connector" then
              match validate_resource_block bl.body l1 with
              | .ok _ => validateStructBlocks rest (connector_count + 1)
              | .error e => .error e
            else validateStructBlocks rest connector_count
        | _ => validateStructBlocks rest connector_count
      else validateStructBlocks rest connector_count

/-- `ConnectUtilApp::validate_terraform_structure` from `src/app.rs`, on an
already-parsed body (the external `hcl::from_str` step modelled as in
`parse_terraform_configs`). -/
def validate_terraform_structure (parsed : Except String Body) :
    Except ConnectUtilError Unit :=
  match parsed with
  | .error e => .error (.Config ("Failed to parse Terraform file: " ++ e))
  | .ok body =>
      match validateStructBlocks (bodyBlocks body) 0 with
      | .error e => .error e
      | .ok connector_count =>
          if connector_count = 0 then .error (.Config noResourcesMsg)
          else .ok ()

/-! ## Config validator (`src/connectors/mod.rs`) -/

/-- The merge in `ConnectorDefinition::validate_config`:
`all_config = config_nonsensitive.clone()` then
`all_config.extend(config_sensitive)` — sensitive entries supersede. -/
def mergedConfig (config_nonsensitive config_sensitive : List (String × String)) :
    List (String × String) :=
  config_sensitive.foldl (fun m p => mapInsert m p.1 p.2) config_nonsensitive

def missingRequiredMsg (name : String) : String :=
  "Missing required configuration: " ++ name

def sensitiveLeakMsg (name : String) : String :=
  "Sensitive configuration \x27" ++ name ++ "\x27 should be in config_sensitive block"

/-- The Rust `{:?}` debug rendering of a `Vec<String>`. -/
def debugStringList (vs : List String) : String :=
  "[" ++ String.intercalate ", " (vs.map (fun v => "\"" ++ v ++ "\"")) ++ "]"

def invalidValueMsg (value key : String) (valid_values : List String) : String :=
  "Invalid value \x27" ++ value ++ "\x27 for field \x27" ++ key
    ++ "\x27. Valid values: " ++ debugStringList valid_values

/-- `required_configs.iter().chain(optional_configs.iter()).find(...)`. -/
def knownField (d : ConnectorDefinition) (key : String) : Option ConfigField :=
  (d.required_configs ++ d.optional_configs).find? (fun f => f.name == key)

/-- The second rule's per-name test: the name is present in the
*non-sensitive* map with a non-empty value. -/
def sensitiveLeakCheck (config_nonsensitive : List (String × String))
    (n : String) : Bool :=
  match lookupMap config_nonsensitive n with
  | some value => !(value == "")
  | none => false

/-- The third rule's per-entry test (the body of the
`for (key, value) in &all_config` loop): a key matching a known field with
a `valid_values` restriction whose value is not a member yields the
invalid-value message. -/
def enumCheck (d : ConnectorDefinition) (p : String × String) : Option String :=
  match knownField d p.1 with
  | some field =>
      match field.valid_values with
      | some valid_values =>
          if valid_values.contains p.2 then none
          else some (invalidValueMsg p.2 p.1 valid_values)
      | none => none
  | none => none

/-- `ConnectorDefinition::validate_config` from `src/connectors/mod.rs`:
rule order — missing required fields (checked against the merged map),
then sensitive values leaked into the non-sensitive map (empty strings
tolerated), then `valid_values` membership for merged entries whose key
matches a known field; short-circuits on the first failing rule. -/
def validate_config (d : ConnectorDefinition)
    (config_nonsensitive config_sensitive : List (String × String)) :
    Except String Unit :=
  match d.required_configs.find?
      (fun f => !(containsKey (mergedConfig config_nonsensitive config_sensitive) f.name)) with
  | some f => .error (missingRequiredMsg f.name)
  | none =>
  match d.sensitive_configs.find? (sensitiveLeakCheck config_nonsensitive) with
  | some n => .error (sensitiveLeakMsg n)
  | none =>
  match (mergedConfig config_nonsensitive config_sensitive).findSome? (enumCheck d) with
  | some msg => .error msg
  | none => .ok ()

/-! ## Concrete fixtures (connector definitions and options as the
repository's own tests construct them) -/

/-- The `S3_SINK` definition as `test_add_connector_specific_config_s3`
in `src/terraform.rs` constructs it. -/
def s3SinkDef : ConnectorDefinition :=
  { name := "S3_SINK"
    display_name := "S3 Sink"
    connector_class := "io.confluent.connect.s3.S3SinkConnector"
    connector_type := ConnectorType.Sink
    description := "S3 Sink Connector"
    required_configs := []
    optional_configs := []
    sensitive_configs := [] }

/-- `S3_SINK` generation options with `output_data_format = None`. -/
def s3SinkOptions : TerraformConfigOptions :=
  { connector_name := "test"
    connector := s3SinkDef
    topics := []
    input_data_format := none
    output_data_format := none }

/-- The `PostgresSink` test definition from `create_test_connector` in
`src/terraform.rs`. -/
def postgresSinkTestDef : ConnectorDefinition :=
  { name := "PostgresSink"
    display_name := "PostgreSQL Sink"
    connector_class := "io.confluent.connect.jdbc.JdbcSinkConnector"
    connector_type := ConnectorType.Sink
    description := "PostgreSQL Sink Connector"
    required_configs := []
    optional_configs := []
    sensitive_configs := ["password"] }

/-- Options from `test_generate_connector_config` in `src/terraform.rs`. -/
def testConnectorOptions : TerraformConfigOptions :=
  { connector_name := "test-connector"
    connector := postgresSinkTestDef
    topics := ["test-topic"]
    input_data_format := none
    output_data_format := none }

/-- A structurally valid `confluent_connector` resource body (fixture). -/
def validResourceBody : Body :=
  [Structure.attribute "status" (Expression.str "RUNNING"),
   Structure.block (Block.mk "environment" []
     [Structure.attribute "id" (Expression.traversal "var" ["environment_id"])]),
   Structure.block (Block.mk "kafka_cluster" []
     [Structure.attribute "id" (Expression.traversal "var" ["kafka_cluster", "id"])]),
   Structure.attribute "config_sensitive" (Expression.object []),
   Structure.attribute "config_nonsensitive" (Expression.object
     [(ObjectKey.expression (Expression.str "connector.class"), Expression.str "PostgresSink")])]

/-- A resource body whose first violation is the missing `status`
attribute (fixture for the structural validator). -/
def bodyMissingStatus : Body :=
  [Structure.block (Block.mk "environment" []
     [Structure.attribute "id" (Expression.traversal "var" ["environment_id"])]),
   Structure.block (Block.mk "kafka_cluster" []
     [Structure.attribute "id" (Expression.traversal "var" ["kafka_cluster", "id"])]),
   Structure.attribute "config_sensitive" (Expression.object []),
   Structure.attribute "config_nonsensitive" (Expression.object [])]

/-- A resource body whose first violation is the missing `kafka_cluster`
block (fixture for the structural validator). -/
def bodyMissingKafkaCluster : Body :=
  [Structure.attribute "status" (Expression.str "RUNNING"),
   Structure.block (Block.mk "environment" []
     [Structure.attribute "id" (Expression.traversal "var" ["environment_id"])]),
   Structure.attribute "config_sensitive" (Expression.object []),
   Structure.attribute "config_nonsensitive" (Expression.object [])]

/-- A document with two invalid `confluent_connector` resources: `r1` is
missing `status` and `r2` is missing `kafka_cluster`. -/
def twoBadResourcesDoc : Body :=
  [Structure.block (Block.mk "resource" ["confluent_connector", "r1"] bodyMissingStatus),
   Structure.block (Block.mk "resource" ["confluent_connector", "r2"] bodyMissingKafkaCluster)]

/-- A legacy `module` block fixture carrying a `connector.class`. -/
def moduleBlockFixture : Block :=
  Block.mk "module" ["test_connector"]
    [Structure.attribute "config_sensitive" (Expression.object
       [(ObjectKey.expression (Expression.str "connection.password"),
         Expression.str "secret_password")]),
     Structure.attribute "config_nonsensitive" (Expression.object
       [(ObjectKey.expression (Expression.str "connector.class"),
         Expression.str "PostgresSink"),
        (ObjectKey.expression (Expression.str "connection.host"),
         Expression.str "localhost")])]

/-- A `module` block whose non-sensitive object lacks `connector.class`. -/
def moduleBlockNoClass : Block :=
  Block.mk "module" ["test_connector"]
    [Structure.attribute "config_sensitive" (Expression.object
       [(ObjectKey.expression (Expression.str "connection.password"),
         Expression.str "secret_password")]),
     Structure.attribute "config_nonsensitive" (Expression.object
       [(ObjectKey.expression (Expression.str "connection.host"),
         Expression.str "localhost")])]

/-- The required `topic.prefix` field of the CDC source definitions
(`src/connectors/sources.rs`, `postgresql_cdc_source_v2`). -/
def topicPrefixField : ConfigField :=
  { name := "topic.prefix"
    display_name := "topic.prefix"
    description := "Topic prefix for CDC events"
    field_type := "string"
    required := true
    default_value := none
    valid_values := none }

/-- A CDC-style source definition requiring `topic.prefix` (the shape of
`PostgresCdcSourceV2` from the catalog, reduced to the fields the
generator consults). -/
def cdcTestDef : ConnectorDefinition :=
  { name := "PostgresCdcSourceV2"
    display_name := "PostgreSQL CDC Source V2 (Debezium)"
    connector_class := "PostgresCdcSourceV2"
    connector_type := ConnectorType.Source
    description := "Capture change data from PostgreSQL databases (V2)"
    required_configs := [topicPrefixField]
    optional_configs := []
    sensitive_configs := [] }

/-- CDC options with two topics, as in
`test_generate_terraform_config_with_topic_prefix`. -/
def cdcTestOptions : TerraformConfigOptions :=
  { connector_name := "test-connector"
    connector := cdcTestDef
    topics := ["t1", "t2"]
    input_data_format := none
    output_data_format := none }

/-- A required `host` field with no value restriction. -/
def requiredHostField : ConfigField :=
  { name := "host"
    display_name := "host"
    description := "Database host"
    field_type := "string"
    required := true
    default_value := none
    valid_values := none }

/-- A small definition with one required field and one sensitive field,
for exercising `validate_config`. -/
def hostOnlyDef : ConnectorDefinition :=
  { name := "TestConnector"
    display_name := "Test Connector"
    connector_class := "TestConnector"
    connector_type := ConnectorType.Source
    description := "Test Connector"
    required_configs := [requiredHostField]
    optional_configs := []
    sensitive_configs := ["password"] }

/-! ## Supporting lemmas -/

theorem isValidHclIdent_join : isValidHclIdent "join" = true := by decide

theorem isValidHclIdent_var : isValidHclIdent "var" = true := by decide

theorem lookupMap_mapInsert (m : List (String × String)) (k v q : String) :
    lookupMap (mapInsert m k v) q = if k = q then some v else lookupMap m q := by
  induction m with
  | nil => rfl
  | cons p rest ih =>
      obtain ⟨k', v'⟩ := p
      by_cases h1 : k' = k
      · subst h1
        by_cases h2 : k' = q <;> simp [mapInsert, lookupMap, h2]
      · by_cases h2 : k' = q
        · subst h2
          have : ¬ k = k' := fun h => h1 h.symm
          simp [mapInsert, lookupMap, h1, this]
        · simp [mapInsert, lookupMap, h1, h2, ih]

theorem mem_mapInsert (m : List (String × String)) (k v : String) :
    ∀ p ∈ mapInsert m k v, p ∈ m ∨ p = (k, v) := by
  induction m with
  | nil =>
      intro p hp
      simp only [mapInsert, List.mem_singleton] at hp
      exact Or.inr hp
  | cons q rest ih =>
      intro p hp
      by_cases h1 : q.1 = k
      · rw [show mapInsert (q :: rest) k v = (q.1, v) :: rest by
          obtain ⟨k', v'⟩ := q; simp only at h1; simp [mapInsert, h1]] at hp
        rcases List.mem_cons.mp hp with h | h
        · exact Or.inr (by rw [h, h1])
        · exact Or.inl (List.mem_cons_of_mem _ h)
      · rw [show mapInsert (q :: rest) k v = q :: mapInsert rest k v by
          obtain ⟨k', v'⟩ := q; simp only at h1; simp [mapInsert, h1]] at hp
        rcases List.mem_cons.mp hp with h | h
        · exact Or.inl (by rw [h]; exact List.mem_cons_self _ _)
        · rcases ih p h with h2 | h2
          · exact Or.inl (List.mem_cons_of_mem _ h2)
          · exact Or.inr h2

theorem lookupMap_foldl_insert (s : List (String × String))
    (m : List (String × String)) (q : String) :
    lookupMap (s.foldl (fun m p => mapInsert m p.1 p.2) m) q
      = s.foldl (fun acc p => if p.1 = q then some p.2 else acc) (lookupMap m q) := by
  induction s generalizing m with
  | nil => rfl
  | cons p rest ih =>
      simp only [List.foldl_cons, ih, lookupMap_mapInsert]

theorem lookupMap_mergedConfig (ns s : List (String × String)) (q : String) :
    lookupMap (mergedConfig ns s) q
      = s.foldl (fun acc p => if p.1 = q then some p.2 else acc) (lookupMap ns q) :=
  lookupMap_foldl_insert s ns q

theorem foldl_lastwins_isSome (q : String) (s : List (String × String))
    (acc : Option String) :
    (s.foldl (fun acc p => if p.1 = q then some p.2 else acc) acc).isSome
      = (acc.isSome || (lookupMap s q).isSome) := by
  induction s generalizing acc with
  | nil => simp [lookupMap]
  | cons p rest ih =>
      by_cases h : p.1 = q
      · obtain ⟨k, v⟩ := p
        simp only at h
        subst h
        simp [List.foldl_cons, lookupMap, ih]
      · obtain ⟨k, v⟩ := p
        simp only at h
        simp [List.foldl_cons, lookupMap, h, ih]

theorem containsKey_mergedConfig (ns s : List (String × String)) (q : String) :
    containsKey (mergedConfig ns s) q = (containsKey ns q || containsKey s q) := by
  unfold containsKey
  rw [lookupMap_mergedConfig, foldl_lastwins_isSome]

theorem objLookup_objInsert (m : Object) (k : ObjectKey) (v : Expression)
    (q : ObjectKey) :
    objLookup (objInsert m k v) q = if keyBeq k q then some v else objLookup m q := by
  induction m with
  | nil => rfl
  | cons p rest ih =>
      obtain ⟨k', v'⟩ := p
      by_cases h1 : k' = k
      · subst h1
        cases h2 : keyBeq k' q <;> simp [objInsert, objLookup, keyBeq_refl, h2]
      · have hf : keyBeq k' k = false := (keyBeq_eq_false_iff _ _).mpr h1
        by_cases h2 : k' = q
        · subst h2
          have hkq : keyBeq k k' = false :=
            (keyBeq_eq_false_iff _ _).mpr (fun h => h1 h.symm)
          simp [objInsert, objLookup, hf, keyBeq_refl, hkq, ih]
        · have hf2 : keyBeq k' q = false := (keyBeq_eq_false_iff _ _).mpr h2
          simp [objInsert, objLookup, hf, hf2, ih]

theorem objLookup_insertAll (obj : Object) (es : List (ObjectKey × Expression))
    (q : ObjectKey) :
    objLookup (insertAll obj es) q
      = es.foldl (fun acc p => if keyBeq p.1 q then some p.2 else acc)
          (objLookup obj q) := by
  induction es generalizing obj with
  | nil => rfl
  | cons p rest ih =>
      simp only [insertAll, List.foldl_cons] at *
      rw [ih, objLookup_objInsert]

theorem foldl_lookup_skip (q : ObjectKey) (es : List (ObjectKey × Expression))
    (acc : Option Expression)
    (h : ∀ p ∈ es, keyBeq p.1 q = false) :
    es.foldl (fun acc p => if keyBeq p.1 q then some p.2 else acc) acc = acc := by
  induction es generalizing acc with
  | nil => rfl
  | cons p rest ih =>
      rw [List.foldl_cons, if_neg (by rw [h p (List.mem_cons_self _ _)]; simp)]
      exact ih acc (fun p hp => h p (List.mem_cons_of_mem _ hp))

theorem objInsert_keys_pred {Q : ObjectKey → Prop} (m : Object)
    (k : ObjectKey) (v : Expression)
    (hm : ∀ p ∈ m, Q p.1) (hk : Q k) : ∀ p ∈ objInsert m k v, Q p.1 := by
  induction m with
  | nil =>
      intro p hp
      simp only [objInsert, List.mem_singleton] at hp
      rw [hp]
      exact hk
  | cons e rest ih =>
      obtain ⟨k', v'⟩ := e
      intro p hp
      by_cases h1 : keyBeq k' k = true
      · simp only [objInsert, if_pos h1, List.mem_cons] at hp
        rcases hp with rfl | hp
        · exact hm (k', v') (List.mem_cons_self _ _)
        · exact hm p (List.mem_cons_of_mem _ hp)
      · rw [show objInsert ((k', v') :: rest) k v = (k', v') :: objInsert rest k v by
          simp [objInsert, h1]] at hp
        rcases List.mem_cons.mp hp with h | h
        · rw [h]; exact hm (k', v') (List.mem_cons_self _ _)
        · exact ih (fun p hp => hm p (List.mem_cons_of_mem _ hp)) p h

theorem insertAll_keys_pred {Q : ObjectKey → Prop} (obj : Object)
    (es : List (ObjectKey × Expression))
    (hobj : ∀ p ∈ obj, Q p.1) (hes : ∀ p ∈ es, Q p.1) :
    ∀ p ∈ insertAll obj es, Q p.1 := by
  induction es generalizing obj with
  | nil => exact hobj
  | cons e rest ih =>
      simp only [insertAll, List.foldl_cons]
      exact ih (objInsert obj e.1 e.2)
        (objInsert_keys_pred obj e.1 e.2 hobj (hes e (List.mem_cons_self _ _)))
        (fun p hp => hes p (List.mem_cons_of_mem _ hp))

theorem objInsert_append (m : Object) (k : ObjectKey) (v : Expression)
    (h : ∀ p ∈ m, keyBeq p.1 k = false) :
    objInsert m k v = m ++ [(k, v)] := by
  induction m with
  | nil => rfl
  | cons e rest ih =>
      obtain ⟨k', v'⟩ := e
      have h1 : keyBeq k' k = false := h (k', v') (List.mem_cons_self _ _)
      simp only [objInsert, h1, Bool.false_eq_true, if_false, List.cons_append,
        List.cons.injEq, true_and]
      exact ih (fun p hp => h p (List.mem_cons_of_mem _ hp))

theorem objInsert_shape1 (l2 l3 : Object) (kt : ObjectKey) (vt : Expression)
    (k : ObjectKey) (v : Expression) (ht : keyBeq kt k = false) :
    ∃ m2 m3, objInsert (l2 ++ (kt, vt) :: l3) k v = m2 ++ (kt, vt) :: m3 := by
  induction l2 with
  | nil => exact ⟨[], objInsert l3 k v, by simp [objInsert, ht]⟩
  | cons e rest ih =>
      obtain ⟨k', v'⟩ := e
      by_cases h1 : keyBeq k' k = true
      · exact ⟨(k', v) :: rest, l3, by simp [objInsert, h1]⟩
      · obtain ⟨m2, m3, hm⟩ := ih
        exact ⟨(k', v') :: m2, m3, by
          simp only [List.cons_append, objInsert, h1, Bool.false_eq_true, if_false,
            List.append_eq]
          rw [hm]⟩

theorem objInsert_shape2 (l1 l2 l3 : Object) (kp : ObjectKey) (vp : Expression)
    (kt : ObjectKey) (vt : Expression) (k : ObjectKey) (v : Expression)
    (hp : keyBeq kp k = false) (ht : keyBeq kt k = false) :
    ∃ m1 m2 m3, objInsert (l1 ++ (kp, vp) :: l2 ++ (kt, vt) :: l3) k v
      = m1 ++ (kp, vp) :: m2 ++ (kt, vt) :: m3 := by
  induction l1 with
  | nil =>
      obtain ⟨m2, m3, hm⟩ := objInsert_shape1 l2 l3 kt vt k v ht
      exact ⟨[], m2, m3, by
        simp only [List.nil_append, objInsert, hp, Bool.false_eq_true, if_false,
          List.append_eq]
        rw [hm]
        rfl⟩
  | cons e rest ih =>
      obtain ⟨k', v'⟩ := e
      by_cases h1 : keyBeq k' k = true
      · exact ⟨(k', v) :: rest, l2, l3, by simp [objInsert, h1]⟩
      · obtain ⟨m1, m2, m3, hm⟩ := ih
        exact ⟨(k', v') :: m1, m2, m3, by
          simp only [List.cons_append, objInsert, h1, Bool.false_eq_true, if_false,
            List.append_eq]
          rw [hm]⟩

theorem insertAll_shape2 (es : List (ObjectKey × Expression)) (l1 l2 l3 : Object)
    (kp : ObjectKey) (vp : Expression) (kt : ObjectKey) (vt : Expression)
    (hes : ∀ p ∈ es, keyBeq kp p.1 = false ∧ keyBeq kt p.1 = false) :
    ∃ m1 m2 m3, insertAll (l1 ++ (kp, vp) :: l2 ++ (kt, vt) :: l3) es
      = m1 ++ (kp, vp) :: m2 ++ (kt, vt) :: m3 := by
  induction es generalizing l1 l2 l3 with
  | nil => exact ⟨l1, l2, l3, rfl⟩
  | cons e rest ih =>
      obtain ⟨h1, h2⟩ := hes e (List.mem_cons_self _ _)
      obtain ⟨m1, m2, m3, hm⟩ :=
        objInsert_shape2 l1 l2 l3 kp vp kt vt e.1 e.2 h1 h2
      have : insertAll (l1 ++ (kp, vp) :: l2 ++ (kt, vt) :: l3) (e :: rest)
          = insertAll (m1 ++ (kp, vp) :: m2 ++ (kt, vt) :: m3) rest := by
        simp only [insertAll, List.foldl_cons]
        rw [hm]
      rw [this]
      exact ih m1 m2 m3 (fun p hp => hes p (List.mem_cons_of_mem _ hp))

/-- `String.append` acts as list append on the underlying character data. -/
theorem strAppendData (a b : String) : (a ++ b).data = a.data ++ b.data := by
  cases a; cases b; rfl

theorem missingRequiredMsg_ne_sensitiveLeakMsg (a b : String) :
    missingRequiredMsg a ≠ sensitiveLeakMsg b := by
  intro h
  have h2 := congrArg (fun s => s.data.head?) h
  obtain ⟨da⟩ := a
  obtain ⟨db⟩ := b
  simp [missingRequiredMsg, sensitiveLeakMsg, String.append] at h2

theorem missingRequiredMsg_ne_invalidValueMsg (a v k : String) (vs : List String) :
    missingRequiredMsg a ≠ invalidValueMsg v k vs := by
  intro h
  have h2 := congrArg (fun s => s.data.head?) h
  obtain ⟨da⟩ := a
  obtain ⟨dv⟩ := v
  obtain ⟨dk⟩ := k
  generalize hd : debugStringList vs = dstr at h2
  obtain ⟨dd⟩ := dstr
  simp [missingRequiredMsg, invalidValueMsg, String.append] at h2

theorem sensitiveLeakMsg_ne_invalidValueMsg (a v k : String) (vs : List String) :
    sensitiveLeakMsg a ≠ invalidValueMsg v k vs := by
  intro h
  have h2 := congrArg (fun s => s.data.head?) h
  obtain ⟨da⟩ := a
  obtain ⟨dv⟩ := v
  obtain ⟨dk⟩ := k
  generalize hd : debugStringList vs = dstr at h2
  obtain ⟨dd⟩ := dstr
  simp [sensitiveLeakMsg, invalidValueMsg, String.append] at h2

theorem containsKey_iff_mem_keys (m : List (String × String)) (q : String) :
    containsKey m q = true ↔ q ∈ m.map Prod.fst := by
  induction m with
  | nil => simp [containsKey, lookupMap]
  | cons p rest ih =>
      obtain ⟨k, v⟩ := p
      by_cases h : k = q
      · subst h
        simp [containsKey, lookupMap]
      · simp [containsKey, lookupMap, h, Ne.symm h] at ih ⊢
        exact ih

theorem mapInsert_keys (m : List (String × String)) (k v : String) :
    (mapInsert m k v).map Prod.fst
      = if containsKey m k then m.map Prod.fst else m.map Prod.fst ++ [k] := by
  induction m with
  | nil => simp [mapInsert, containsKey, lookupMap]
  | cons p rest ih =>
      obtain ⟨k', v'⟩ := p
      by_cases h : k' = k
      · subst h
        simp [mapInsert, containsKey, lookupMap]
      · simp only [mapInsert, h, if_false, List.map_cons, containsKey, lookupMap, ih]
        by_cases h2 : containsKey rest k
        · simp [containsKey, h, h2] at *
          simp [ih, h2]
        · simp [containsKey, h, h2] at *
          simp [ih, h2]

theorem mapInsert_keys_nodup (m : List (String × String)) (k v : String)
    (h : (m.map Prod.fst).Nodup) : ((mapInsert m k v).map Prod.fst).Nodup := by
  rw [mapInsert_keys]
  by_cases h2 : containsKey m k
  · simpa [h2] using h
  · have hk : k ∉ m.map Prod.fst := fun hm =>
      h2 ((containsKey_iff_mem_keys m k).mpr hm)
    simp only [h2, if_false]
    simp [List.nodup_append, h, hk]

theorem foldl_insert_keys_nodup (s : List (String × String))
    (m : List (String × String)) (h : (m.map Prod.fst).Nodup) :
    (((s.foldl (fun m p => mapInsert m p.1 p.2) m)).map Prod.fst).Nodup := by
  induction s generalizing m with
  | nil => exact h
  | cons p rest ih =>
      exact ih (mapInsert m p.1 p.2) (mapInsert_keys_nodup m p.1 p.2 h)

theorem lookup_of_mem_nodup (m : List (String × String))
    (h : (m.map Prod.fst).Nodup) (p : String × String) (hp : p ∈ m) :
    lookupMap m p.1 = some p.2 := by
  induction m with
  | nil => cases hp
  | cons e rest ih =>
      obtain ⟨k, v⟩ := e
      rcases List.mem_cons.mp hp with h1 | h1
      · rw [h1]
        simp [lookupMap]
      · have hk : k ≠ p.1 := by
          intro he
          have : p.1 ∈ rest.map Prod.fst := List.mem_map_of_mem Prod.fst h1
          rw [← he] at this
          exact (List.nodup_cons.mp h).1 this
        simp only [lookupMap, hk, if_false]
        exact ih (List.nodup_cons.mp h).2 h1

theorem mem_of_lookup_eq_some (m : List (String × String))
    (p : String × String) (hp : lookupMap m p.1 = some p.2) : p ∈ m := by
  obtain ⟨p1, p2⟩ := p
  simp only at hp
  induction m with
  | nil => cases hp
  | cons e rest ih =>
      obtain ⟨k, v⟩ := e
      by_cases h : k = p1
      · subst h
        simp only [lookupMap] at hp
        simp at hp
        exact List.mem_cons.mpr (Or.inl (by simp [hp]))
      · simp only [lookupMap, h, if_false] at hp
        exact List.mem_cons_of_mem _ (ih hp)

theorem extractStrings_eq_filterMap (es : List Expression) :
    extractStrings es = es.filterMap extract_string_from_expression := by
  induction es with
  | nil => rfl
  | cons e rest ih =>
      cases h : extract_string_from_expression e <;>
        simp [extractStrings, List.filterMap_cons, h, ih]

theorem keyBeq_false_comm (a b : ObjectKey) (h : keyBeq a b = false) :
    keyBeq b a = false :=
  (keyBeq_eq_false_iff b a).mpr (Ne.symm ((keyBeq_eq_false_iff a b).mp h))

theorem insertAll_append (obj : Object) (es1 es2 : List (ObjectKey × Expression)) :
    insertAll obj (es1 ++ es2) = insertAll (insertAll obj es1) es2 := by
  simp [insertAll, List.foldl_append]

theorem insertAll_shape_pair (es : List (ObjectKey × Expression)) (l1 : Object)
    (kp : ObjectKey) (vp : Expression) (kt : ObjectKey) (vt : Expression)
    (hes : ∀ p ∈ es, keyBeq kp p.1 = false ∧ keyBeq kt p.1 = false) :
    ∃ m1 m2 m3, insertAll (l1 ++ [(kp, vp), (kt, vt)]) es
      = m1 ++ (kp, vp) :: m2 ++ (kt, vt) :: m3 := by
  have h : l1 ++ [(kp, vp), (kt, vt)] = l1 ++ (kp, vp) :: [] ++ (kt, vt) :: [] := by
    rw [List.append_assoc]; rfl
  rw [h]
  exact insertAll_shape2 es l1 [] [] kp vp kt vt hes

/-- Every connector-specific override entry has a key other than
`connector.class`, `topics` and `topic.prefix`. -/
theorem connectorSpecificEntries_keys (d : ConnectorDefinition)
    (options : TerraformConfigOptions) :
    ∀ p ∈ connectorSpecificEntries d options,
      keyToString p.1 ≠ "connector.class"
      ∧ keyBeq p.1 (make_object_key "topics") = false
      ∧ keyBeq p.1 (make_object_key "topic.prefix") = false := by
  have hkeys : ∀ k ∈ (connectorSpecificEntries d options).map Prod.fst,
      keyToString k ≠ "connector.class"
      ∧ keyBeq k (make_object_key "topics") = false
      ∧ keyBeq k (make_object_key "topic.prefix") = false := by
    intro k hk
    unfold connectorSpecificEntries at hk
    split at hk
    all_goals simp only [List.map_cons, List.map_nil] at hk
    all_goals first
      | exact absurd hk (List.not_mem_nil k)
      | (fin_cases hk <;> exact ⟨by decide, by decide, by decide⟩)
  intro p hp
  exact hkeys p.1 (List.mem_map_of_mem Prod.fst hp)

/-- The four base entries have keys other than `topics` and `topic.prefix`. -/
theorem baseNonsensitiveEntries_keys (options : TerraformConfigOptions) :
    ∀ p ∈ baseNonsensitiveEntries options,
      keyBeq p.1 (make_object_key "topics") = false
      ∧ keyBeq p.1 (make_object_key "topic.prefix") = false := by
  have hkeys : ∀ k ∈ (baseNonsensitiveEntries options).map Prod.fst,
      keyBeq k (make_object_key "topics") = false
      ∧ keyBeq k (make_object_key "topic.prefix") = false := by
    intro k hk
    simp only [baseNonsensitiveEntries, List.map_cons, List.map_nil] at hk
    fin_cases hk <;> exact ⟨by decide, by decide⟩
  intro p hp
  exact hkeys p.1 (List.mem_map_of_mem Prod.fst hp)

/-- The two trailing entries have keys other than `topics` and
`topic.prefix`. -/
theorem outputFormatEntries_keys (options : TerraformConfigOptions) :
    ∀ p ∈ outputFormatEntries options,
      keyBeq p.1 (make_object_key "topics") = false
      ∧ keyBeq p.1 (make_object_key "topic.prefix") = false := by
  have hkeys : ∀ k ∈ (outputFormatEntries options).map Prod.fst,
      keyBeq k (make_object_key "topics") = false
      ∧ keyBeq k (make_object_key "topic.prefix") = false := by
    intro k hk
    simp only [outputFormatEntries, List.map_cons, List.map_nil] at hk
    fin_cases hk <;> exact ⟨by decide, by decide⟩
  intro p hp
  exact hkeys p.1 (List.mem_map_of_mem Prod.fst hp)

/-- Looking a key up in the full non-sensitive object reduces to a fold
over the topics-section entries alone whenever every entry of the other
three sections misses the key. -/
theorem config_nonsensitive_lookup_topics (options : TerraformConfigOptions)
    (q : ObjectKey)
    (hb : ∀ p ∈ baseNonsensitiveEntries options, keyBeq p.1 q = false)
    (ha : ∀ p ∈ connectorSpecificEntries options.connector options,
      keyBeq p.1 q = false)
    (ht : ∀ p ∈ outputFormatEntries options, keyBeq p.1 q = false) :
    objLookup (config_nonsensitive_obj options) q
      = (topicsEntries options).foldl
          (fun acc p => if keyBeq p.1 q then some p.2 else acc) none := by
  unfold config_nonsensitive_obj
  rw [objLookup_insertAll]
  simp only [List.foldl_append, objLookup]
  rw [foldl_lookup_skip q _ _ hb]
  rw [foldl_lookup_skip q _ _ ha]
  rw [foldl_lookup_skip q _ _ ht]

/-! ## Claim theorems -/

/-- C2: the claim says every `output.data.format` / `input.data.format`
value is a reference (traversal) expression into a formats lookup table,
never a literal string.  In fact `DataFormat::to_terraform_value` returns
the dot-free wire tokens `AVRO`, `JSON`, `JSON_SR`, `PROTOBUF`, `PARQUET`,
so the `parts.len() >= 2` branch of `data_format_to_expression` that would
build the traversal is dead, and every data format is emitted as a literal
string — contradicting the function's own comment (`src/terraform.rs`
lines 209-212), which documents `to_terraform_value` as returning
`local.schema_formats.avro`-style references.  This theorem evaluates the
code at every format: the result is always `Expression.str` and never an
`Expression.traversal`. -/
theorem c2_data_format_is_literal_string (format : DataFormat) :
    data_format_to_expression format = Expression.str format.to_terraform_value
    ∧ ∀ (root : String) (attrs : List String),
        data_format_to_expression format ≠ Expression.traversal root attrs := by
  cases format <;> exact ⟨rfl, fun root attrs h => nomatch h⟩

/-- C3: for `S3_SINK` options with `output_data_format = None`, the claim
says the final `output.data.format` entry is the Parquet default.  The
S3-specific arm does insert the Parquet default, but
`generate_connector_config` afterwards inserts `output.data.format` with
the generic Avro default, and `Object::insert` replaces the value of the
existing key — so the final entry is Avro (`"AVRO"`), not Parquet.  This
theorem evaluates the code on the failing input: the S3 arm's own entry is
Parquet, yet the final object maps `output.data.format` to `"AVRO"`. -/
theorem c3_s3_sink_output_format_overwritten :
    objLookup (config_nonsensitive_obj s3SinkOptions)
        (make_object_key "output.data.format")
      = some (Expression.str "AVRO")
    ∧ (make_object_key "output.data.format", Expression.str "PARQUET")
        ∈ connectorSpecificEntries s3SinkDef s3SinkOptions
    ∧ Expression.str "AVRO" ≠ data_format_to_expression DataFormat.Parquet := by
  refine ⟨rfl, ?_, ?_⟩
  · exact List.mem_cons_of_mem _ (List.mem_cons_of_mem _
      (List.mem_cons_of_mem _ (List.mem_cons_self _ _)))
  · intro h
    rw [show data_format_to_expression DataFormat.Parquet
        = Expression.str "PARQUET" from rfl] at h
    simp at h

/-- C9: the extractor on a `join` function call whose first argument is an
array returns the recursively extracted elements (failures discarded)
joined by `", "`; on any other function name, or a `join` whose first
argument is not an array, it returns `some "<name>(...)"`. -/
theorem c9_extract_function_call :
    (∀ (arr rest : List Expression),
        extract_string_from_expression
            (Expression.funcCall "join" (Expression.array arr :: rest))
          = some (String.intercalate ", "
              (arr.filterMap extract_string_from_expression)))
    ∧ (∀ (name : String) (args : List Expression),
        (name ≠ "join"
          ∨ ∀ (arr rest : List Expression), args ≠ Expression.array arr :: rest) →
        extract_string_from_expression (Expression.funcCall name args)
          = some (name ++ "(...)")) := by
  constructor
  · intro arr rest
    simp [extract_string_from_expression, extractStrings_eq_filterMap]
  · rintro name args (h | h)
    · cases args with
      | nil => rfl
      | cons a as =>
          cases a <;>
            simp [extract_string_from_expression,
              show (name == "join") = false from beq_eq_false_iff_ne.mpr h]
    · cases args with
      | nil => rfl
      | cons a as =>
          cases a
          case array arr => exact absurd rfl (h arr as)
          all_goals rfl

theorem mergedConfig_keys_nodup (ns s : List (String × String))
    (h : (ns.map Prod.fst).Nodup) :
    ((mergedConfig ns s).map Prod.fst).Nodup :=
  foldl_insert_keys_nodup s ns h

theorem lookupMap_merged_mapInsert_ne (ns s : List (String × String))
    (k v q : String) (h : q ≠ k) :
    lookupMap (mergedConfig (mapInsert ns k v) s) q
      = lookupMap (mergedConfig ns s) q := by
  rw [lookupMap_mergedConfig, lookupMap_mergedConfig, lookupMap_mapInsert,
    if_neg (fun he => h he.symm)]

theorem enumCheck_some_shape (d : ConnectorDefinition) (p : String × String)
    (msg : String) (h : enumCheck d p = some msg) :
    ∃ vv, msg = invalidValueMsg p.2 p.1 vv := by
  unfold enumCheck at h
  split at h
  · split at h
    · split at h
      · cases h
      · injection h with h2
        exact ⟨_, h2.symm⟩
    · cases h
  · cases h

theorem enumCheck_none_of_unknown (d : ConnectorDefinition) (p : String × String)
    (h : ∀ f ∈ d.required_configs ++ d.optional_configs, f.name ≠ p.1) :
    enumCheck d p = none := by
  have : knownField d p.1 = none := by
    unfold knownField
    rw [List.find?_eq_none]
    intro f hf
    simp [h f hf]
  simp [enumCheck, this]

/-- C7: `validate_config` returns the "missing required configuration"
error exactly when some required field is absent from the merge of the
two maps; and when it succeeds, adding an entry whose key matches no known
field (and is not a sensitive name) keeps it succeeding — extra unknown
keys never cause a failure.  (The Rust maps are `HashMap`s, so the
association lists carry key-uniqueness hypotheses in the second part.) -/
theorem c7_missing_required_iff (d : ConnectorDefinition)
    (ns s : List (String × String)) :
    ((∃ name, validate_config d ns s = .error (missingRequiredMsg name))
       ↔ ∃ f ∈ d.required_configs, containsKey (mergedConfig ns s) f.name = false)
    ∧ (∀ k v, (∀ f ∈ d.required_configs ++ d.optional_configs, f.name ≠ k) →
        k ∉ d.sensitive_configs →
        (ns.map Prod.fst).Nodup → (s.map Prod.fst).Nodup →
        validate_config d ns s = .ok () →
        validate_config d (mapInsert ns k v) s = .ok ()) := by
  constructor
  · constructor
    · rintro ⟨name, h⟩
      unfold validate_config at h
      split at h
      case _ f heq =>
        refine ⟨f, List.mem_of_find?_eq_some heq, ?_⟩
        have := List.find?_some heq
        simpa using this
      case _ hreq =>
        split at h
        case _ n heq2 =>
          injection h with h2
          exact absurd h2.symm (missingRequiredMsg_ne_sensitiveLeakMsg name n)
        case _ hsens =>
          split at h
          case _ msg heq3 =>
            injection h with h2
            obtain ⟨p, _, hfp⟩ := List.exists_of_findSome?_eq_some heq3
            obtain ⟨vv, rfl⟩ := enumCheck_some_shape d p msg hfp
            exact absurd h2.symm
              (missingRequiredMsg_ne_invalidValueMsg name p.2 p.1 vv)
          case _ henum => cases h
    · rintro ⟨f, hf, hc⟩
      have hsome : (d.required_configs.find?
          (fun f => !(containsKey (mergedConfig ns s) f.name))).isSome := by
        rw [List.find?_isSome]
        exact ⟨f, hf, by simp [hc]⟩
      obtain ⟨f0, hf0⟩ := Option.isSome_iff_exists.mp hsome
      refine ⟨f0.name, ?_⟩
      unfold validate_config
      simp only [hf0]
  · intro k v hunknown hksens hnodupns hnodups hok
    unfold validate_config at hok
    split at hok
    case _ f heq => cases hok
    case _ hreq =>
      split at hok
      case _ n heq2 => cases hok
      case _ hsens =>
        split at hok
        case _ msg heq3 => cases hok
        case _ henum =>
          have hreq' := List.find?_eq_none.mp hreq
          have hsens' := List.find?_eq_none.mp hsens
          have henum' := List.findSome?_eq_none_iff.mp henum
          have h1 : d.required_configs.find?
              (fun f => !(containsKey (mergedConfig (mapInsert ns k v) s) f.name)) = none := by
            rw [List.find?_eq_none]
            intro f hf
            have hne : f.name ≠ k := hunknown f (List.mem_append_left _ hf)
            have : containsKey (mergedConfig (mapInsert ns k v) s) f.name
                = containsKey (mergedConfig ns s) f.name := by
              unfold containsKey
              rw [lookupMap_merged_mapInsert_ne ns s k v f.name hne]
            rw [this]
            exact hreq' f hf
          have h2 : d.sensitive_configs.find?
              (sensitiveLeakCheck (mapInsert ns k v)) = none := by
            rw [List.find?_eq_none]
            intro n hn
            have hne : k ≠ n := fun he => hksens (he ▸ hn)
            have : sensitiveLeakCheck (mapInsert ns k v) n = sensitiveLeakCheck ns n := by
              unfold sensitiveLeakCheck
              rw [lookupMap_mapInsert, if_neg hne]
            rw [this]
            exact hsens' n hn
          have h3 : (mergedConfig (mapInsert ns k v) s).findSome? (enumCheck d) = none := by
            rw [List.findSome?_eq_none_iff]
            intro p hp
            by_cases hpk : p.1 = k
            · exact enumCheck_none_of_unknown d p (fun f hf => hpk ▸ hunknown f hf)
            · have hnodupns' : ((mapInsert ns k v).map Prod.fst).Nodup :=
                mapInsert_keys_nodup ns k v hnodupns
              have hmn : ((mergedConfig (mapInsert ns k v) s).map Prod.fst).Nodup :=
                mergedConfig_keys_nodup _ s hnodupns'
              have hlk : lookupMap (mergedConfig (mapInsert ns k v) s) p.1 = some p.2 :=
                lookup_of_mem_nodup _ hmn p hp
              rw [lookupMap_merged_mapInsert_ne ns s k v p.1 hpk] at hlk
              exact henum' p (mem_of_lookup_eq_some _ p hlk)
          unfold validate_config
          simp only [h1, h2, h3]

/-- Witness for `c7_missing_required_iff`: at the concrete definition with
one required field `host`, a map containing `host` stays valid after
inserting an unknown `extra` key, and a map missing `host` produces the
missing-required error. -/
theorem c7_missing_required_iff_witness :
    validate_config hostOnlyDef (mapInsert [("host", "h")] "extra" "y") [] = .ok ()
    ∧ (∃ name, validate_config hostOnlyDef [] [] = .error (missingRequiredMsg name)) :=
  ⟨(c7_missing_required_iff hostOnlyDef [("host", "h")] []).2 "extra" "y"
      (by decide) (by decide) (by decide) (by decide) rfl,
   (c7_missing_required_iff hostOnlyDef [] []).1.mpr
      ⟨requiredHostField, by decide, by decide⟩⟩

/-- C8: when every required field is present in the merged map,
`validate_config` fails with a "should be in sensitive block" message
whenever some sensitive name appears in the non-sensitive map with a
non-empty value, and sensitive names whose non-sensitive values are all
empty never trigger that message. -/
theorem c8_sensitive_leak (d : ConnectorDefinition)
    (ns s : List (String × String))
    (hreq : ∀ f ∈ d.required_configs, containsKey (mergedConfig ns s) f.name = true) :
    ((∃ n ∈ d.sensitive_configs, ∃ v, lookupMap ns n = some v ∧ v ≠ "") →
        ∃ n, validate_config d ns s = .error (sensitiveLeakMsg n))
    ∧ ((∀ n ∈ d.sensitive_configs, ∀ v, lookupMap ns n = some v → v = "") →
        ∀ n, validate_config d ns s ≠ .error (sensitiveLeakMsg n)) := by
  have hfind : d.required_configs.find?
      (fun f => !(containsKey (mergedConfig ns s) f.name)) = none := by
    rw [List.find?_eq_none]
    intro f hf
    simp [hreq f hf]
  constructor
  · rintro ⟨n, hn, v, hv, hne⟩
    have hsome : (d.sensitive_configs.find? (sensitiveLeakCheck ns)).isSome := by
      rw [List.find?_isSome]
      refine ⟨n, hn, ?_⟩
      unfold sensitiveLeakCheck
      rw [hv]
      simpa using hne
    obtain ⟨n0, hn0⟩ := Option.isSome_iff_exists.mp hsome
    refine ⟨n0, ?_⟩
    unfold validate_config
    simp only [hfind, hn0]
  · intro hempty n h
    have hsens : d.sensitive_configs.find? (sensitiveLeakCheck ns) = none := by
      rw [List.find?_eq_none]
      intro m hm
      unfold sensitiveLeakCheck
      cases hv : lookupMap ns m with
      | none => simp
      | some v =>
          have := hempty m hm v hv
          simp [this]
    unfold validate_config at h
    simp only [hfind, hsens] at h
    split at h
    case _ msg heq3 =>
      injection h with h2
      obtain ⟨p, _, hfp⟩ := List.exists_of_findSome?_eq_some heq3
      obtain ⟨vv, rfl⟩ := enumCheck_some_shape d p msg hfp
      exact absurd h2.symm (sensitiveLeakMsg_ne_invalidValueMsg n p.2 p.1 vv)
    case _ henum => cases h

/-- Witness for `c8_sensitive_leak`: a non-empty `password` in the
non-sensitive map triggers the sensitive-block message; an empty one does
not. -/
theorem c8_sensitive_leak_witness :
    (∃ n, validate_config hostOnlyDef [("host", "h"), ("password", "pw")] []
        = .error (sensitiveLeakMsg n))
    ∧ validate_config hostOnlyDef [("host", "h"), ("password", "")] []
        ≠ .error (sensitiveLeakMsg "password") :=
  ⟨(c8_sensitive_leak hostOnlyDef [("host", "h"), ("password", "pw")] []
      (by decide)).1 ⟨"password", by decide, "pw", by decide, by decide⟩,
   (c8_sensitive_leak hostOnlyDef [("host", "h"), ("password", "")] []
      (by decide)).2 (by decide) "password"⟩

theorem nonsensFold_register (map : List (String × String))
    (acc : String × List (String × String))
    (hacc : acc.1 ≠ "" → lookupMap acc.2 "connector.class" = some acc.1) :
    (map.foldl nonsensFoldStep acc).1 ≠ "" →
      lookupMap (map.foldl nonsensFoldStep acc).2 "connector.class"
        = some (map.foldl nonsensFoldStep acc).1 := by
  induction map generalizing acc with
  | nil => exact hacc
  | cons p rest ih =>
      rw [List.foldl_cons]
      apply ih
      intro hne
      by_cases h : p.1 = "connector.class"
      · simp only [nonsensFoldStep, h, beq_self_eq_true, if_true]
        rw [lookupMap_mapInsert, if_pos rfl]
      · have hb : (p.1 == "connector.class") = false := by simp [h]
        simp only [nonsensFoldStep, hb, Bool.false_eq_true, if_false] at hne ⊢
        rw [lookupMap_mapInsert, if_neg h]
        exact hacc hne

theorem extractAttrStep_register (st : ExtractState) (attr : String × Expression)
    (hst : st.connector_class ≠ "" →
      lookupMap st.config_nonsensitive "connector.class" = some st.connector_class) :
    (extractAttrStep st attr).connector_class ≠ "" →
      lookupMap (extractAttrStep st attr).config_nonsensitive "connector.class"
        = some (extractAttrStep st attr).connector_class := by
  unfold extractAttrStep
  split
  · split
    case _ map heq => exact nonsensFold_register map _ hst
    case _ => exact hst
  · split
    · split
      case _ map heq => exact hst
      case _ => exact hst
    · exact hst

theorem extract_config_register (body : Body) :
    (extract_config_from_block body).connector_class ≠ "" →
    lookupMap (extract_config_from_block body).config_nonsensitive "connector.class"
      = some (extract_config_from_block body).connector_class := by
  unfold extract_config_from_block
  generalize bodyAttributes body = attrs
  have : ∀ (st : ExtractState),
      (st.connector_class ≠ "" →
        lookupMap st.config_nonsensitive "connector.class" = some st.connector_class) →
      ((attrs.foldl extractAttrStep st).connector_class ≠ "" →
        lookupMap (attrs.foldl extractAttrStep st).config_nonsensitive "connector.class"
          = some (attrs.foldl extractAttrStep st).connector_class) := by
    induction attrs with
    | nil => exact fun st hst => hst
    | cons attr rest ih =>
        intro st hst
        rw [List.foldl_cons]
        exact ih _ (extractAttrStep_register st attr hst)
  exact this ⟨"", [], []⟩ (fun h => absurd rfl h)

/-- C10 (implicit): every `ConnectorConfig` produced by
`parse_terraform_configs` still carries the reserved `connector.class` key
inside its `config` map, with the same value as its `connector_class`
field — the key is copied into the record, not removed from the map. -/
theorem c10_connector_class_in_config (body : Body) (cfgs : List ConnectorConfig)
    (hparse : parse_terraform_configs (.ok body) = .ok cfgs) :
    ∀ cfg ∈ cfgs, lookupMap cfg.config "connector.class" = some cfg.connector_class := by
  injection hparse with h
  subst h
  intro cfg hcfg
  obtain ⟨bl, _, hcb⟩ := List.mem_filterMap.mp hcfg
  unfold configFromBlock at hcb
  split at hcb
  · split at hcb
    case _ l0 l1 ls heq =>
      split at hcb
      · split at hcb
        case _ hempty => cases hcb
        case _ hempty =>
            injection hcb with h2
            rw [← h2]
            exact extract_config_register bl.body hempty
      · cases hcb
    case _ => cases hcb
  · split at hcb
    · split at hcb
      case _ hempty => cases hcb
      case _ hempty =>
          injection hcb with h2
          rw [← h2]
          exact extract_config_register bl.body hempty
    · cases hcb

/-- Witness for `c10_connector_class_in_config` at a concrete module
block: the parsed record keeps `connector.class` in its config map. -/
theorem c10_connector_class_in_config_witness :
    parse_terraform_configs (.ok [Structure.block moduleBlockFixture])
        = .ok [⟨"test_connector", "PostgresSink",
               [("connector.class", "PostgresSink"), ("connection.host", "localhost")],
               [("connection.password", "secret_password")]⟩]
    ∧ lookupMap [("connector.class", "PostgresSink"), ("connection.host", "localhost")]
        "connector.class" = some "PostgresSink" :=
  ⟨rfl,
   c10_connector_class_in_config [Structure.block moduleBlockFixture] _ rfl
     ⟨"test_connector", "PostgresSink",
      [("connector.class", "PostgresSink"), ("connection.host", "localhost")],
      [("connection.password", "secret_password")]⟩
     (List.mem_singleton.mpr rfl)⟩

theorem nonsensFold_register_skip (map : List (String × String))
    (acc : String × List (String × String))
    (h : ∀ p ∈ map, p.1 ≠ "connector.class") :
    (map.foldl nonsensFoldStep acc).1 = acc.1 := by
  induction map generalizing acc with
  | nil => rfl
  | cons p rest ih =>
      rw [List.foldl_cons]
      have hb : (p.1 == "connector.class") = false := by
        simp [h p (List.mem_cons_self _ _)]
      rw [show nonsensFoldStep acc p
          = (acc.1, mapInsert acc.2 p.1 p.2) by simp [nonsensFoldStep, hb]]
      exact ih _ (fun q hq => h q (List.mem_cons_of_mem _ hq))

theorem extract_config_cc_empty (body : Body)
    (h : ∀ attr ∈ bodyAttributes body, attr.1 = "config_nonsensitive" →
      ∀ m, extract_map_from_expression attr.2 = some m →
        ∀ p ∈ m, p.1 ≠ "connector.class") :
    (extract_config_from_block body).connector_class = "" := by
  unfold extract_config_from_block
  have : ∀ (attrs : List (String × Expression)) (st : ExtractState),
      (∀ attr ∈ attrs, attr.1 = "config_nonsensitive" →
        ∀ m, extract_map_from_expression attr.2 = some m →
          ∀ p ∈ m, p.1 ≠ "connector.class") →
      (attrs.foldl extractAttrStep st).connector_class = st.connector_class := by
    intro attrs
    induction attrs with
    | nil => intro st _; rfl
    | cons attr rest ih =>
        intro st hattrs
        rw [List.foldl_cons]
        rw [ih _ (fun a ha => hattrs a (List.mem_cons_of_mem _ ha))]
        unfold extractAttrStep
        split
        case _ hb =>
          split
          case _ map heq =>
            simp only
            exact nonsensFold_register_skip map _
              (hattrs attr (List.mem_cons_self _ _) (by simpa using hb) map heq)
          case _ => rfl
        case _ =>
          split
          · split <;> rfl
          · rfl
  exact this (bodyAttributes body) ⟨"", [], []⟩ h

theorem configFromBlock_none_of_cc_empty (bl : Block)
    (hcc : (extract_config_from_block bl.body).connector_class = "") :
    configFromBlock bl = none := by
  unfold configFromBlock
  split
  · split
    · split
      · simp [hcc]
      · rfl
    · rfl
  · split
    · simp [hcc]
    · rfl

/-- C6: on any successfully parsed document `parse_terraform_configs`
returns `Ok`; a matched block whose extracted non-sensitive object lacks
the `connector.class` key is silently omitted (the parse of the document
equals the parse without that block); an empty body — e.g. a document made
entirely of comment lines — yields the empty list; and the function
returns an error exactly for an external-parser failure. -/
theorem c6_lenient_parse :
    (∀ e, parse_terraform_configs (.error e)
        = .error (.Config ("Failed to parse Terraform file: " ++ e)))
    ∧ (∀ body : Body, ∃ cfgs, parse_terraform_configs (.ok body) = .ok cfgs)
    ∧ parse_terraform_configs (.ok ([] : Body)) = .ok []
    ∧ (∀ (bl : Block) (rest : Body),
        (∀ attr ∈ bodyAttributes bl.body, attr.1 = "config_nonsensitive" →
          ∀ m, extract_map_from_expression attr.2 = some m →
            ∀ p ∈ m, p.1 ≠ "connector.class") →
        parse_terraform_configs (.ok (Structure.block bl :: rest))
          = parse_terraform_configs (.ok rest)) := by
  refine ⟨fun e => rfl, fun body => ⟨_, rfl⟩, rfl, ?_⟩
  intro bl rest h
  have hnone := configFromBlock_none_of_cc_empty bl (extract_config_cc_empty bl.body h)
  show Except.ok ((bodyBlocks (Structure.block bl :: rest)).filterMap configFromBlock)
      = Except.ok ((bodyBlocks rest).filterMap configFromBlock)
  have : bodyBlocks (Structure.block bl :: rest) = bl :: bodyBlocks rest := rfl
  rw [this, List.filterMap_cons, hnone]

/-- Witness for `c6_lenient_parse`: a module block whose non-sensitive
object lacks `connector.class` is dropped, yielding the empty list. -/
theorem c6_lenient_parse_witness :
    parse_terraform_configs (.ok [Structure.block moduleBlockNoClass]) = .ok [] := by
  have h4 := c6_lenient_parse.2.2.2 moduleBlockNoClass []
  rw [h4, c6_lenient_parse.2.2.1]
  intro attr hattr hname m hm p hp
  have : attr ∈ [("config_sensitive",
      Expression.object [(ObjectKey.expression (Expression.str "connection.password"),
        Expression.str "secret_password")]),
    ("config_nonsensitive",
      Expression.object [(ObjectKey.expression (Expression.str "connection.host"),
        Expression.str "localhost")])] := hattr
  rcases List.mem_cons.mp this with h1 | h1
  · rw [h1] at hname
    simp at hname
  · rcases List.mem_cons.mp h1 with h2 | h2
    · rw [h2] at hm
      rw [show extract_map_from_expression (Expression.object
          [(ObjectKey.expression (Expression.str "connection.host"),
            Expression.str "localhost")])
          = some [("connection.host", "localhost")] from rfl] at hm
      injection hm with hm2
      rw [← hm2] at hp
      rcases List.mem_singleton.mp hp with rfl
      decide
    · cases h2

theorem validateStructBlocks_skip_all (blocks : List Block) (n : Nat)
    (h : ∀ bl ∈ blocks, isConnectorResourceBlock bl = false) :
    validateStructBlocks blocks n = .ok n := by
  induction blocks generalizing n with
  | nil => rfl
  | cons bl rest ih =>
      have hbl := h bl (List.mem_cons_self _ _)
      have hrest : ∀ b ∈ rest, isConnectorResourceBlock b = false :=
        fun b hb => h b (List.mem_cons_of_mem _ hb)
      by_cases h1 : (bl.identifier == "resource") = true
      · rcases hlb : bl.labels with _ | ⟨l0, _ | ⟨l1, ls⟩⟩
        · simp only [validateStructBlocks, h1, if_true, hlb]
          exact ih n hrest
        · simp only [validateStructBlocks, h1, if_true, hlb]
          exact ih n hrest
        · have h2 : (l0 == "confluent_connector") = false := by
            simp only [isConnectorResourceBlock, h1, hlb, Bool.true_and] at hbl
            exact hbl
          simp only [validateStructBlocks, h1, if_true, hlb, h2,
            Bool.false_eq_true, if_false]
          exact ih n hrest
      · simp only [Bool.not_eq_true] at h1
        simp only [validateStructBlocks, h1, Bool.false_eq_true, if_false]
        exact ih n hrest

/-- C4 counterexample: the claim says scanning continues to the next
block, but on a document whose first resource `r1` is missing `status`
and whose second resource `r2` is missing `kafka_cluster`, the validator
returns only `r1`'s error — `r2`'s distinct violation (exhibited by the
second conjunct) is never surfaced, because `validate_terraform_structure`
propagates the first failing block's error with `?` and stops. -/
theorem c4_scanning_does_not_continue :
    validate_terraform_structure (.ok twoBadResourcesDoc)
      = .error (.Config (missingStatusMsg "r1"))
    ∧ validate_resource_block bodyMissingKafkaCluster "r2"
      = .error (.Config (missingKafkaClusterMsg "r2"))
    ∧ missingStatusMsg "r1" ≠ missingKafkaClusterMsg "r2" :=
  ⟨rfl, rfl, by decide⟩

/-- C4 (amended): `validate_structure` checks each matching
`confluent_connector` resource block against the fixed required set
(`status`; `environment` with `id`; `kafka_cluster` with `id`;
`config_sensitive`; `config_nonsensitive`), producing a distinct named
error for the first missing element — but the scan aborts at the first
failing block instead of continuing to the next one — and a document with
zero matching resource declarations is itself the distinct
"no resources found" failure. -/
theorem c4_structure_checks :
    (∀ body : Body, (∀ bl ∈ bodyBlocks body, isConnectorResourceBlock bl = false) →
      validate_terraform_structure (.ok body) = .error (.Config noResourcesMsg))
    ∧ (∀ (l1 : String) (ls : List String) (body : Body) (rest : List Block)
         (n : Nat) (e : ConnectUtilError),
        validate_resource_block body l1 = .error e →
        validateStructBlocks
          (Block.mk "resource" ("confluent_connector" :: l1 :: ls) body :: rest) n
          = .error e)
    ∧ (∀ (body : Body) (name : String),
        (hasStatusAttr body = false →
          validate_resource_block body name
            = .error (.Config (missingStatusMsg name)))
        ∧ (hasStatusAttr body = true → envBlockOf body = none →
            validate_resource_block body name
              = .error (.Config (missingEnvironmentMsg name)))
        ∧ (∀ eb, hasStatusAttr body = true → envBlockOf body = some eb →
            (envAttrKeys eb).any (fun k => k == "id") = false →
            validate_resource_block body name
              = .error (.Config (environmentIdMsg name (envAttrKeys eb))))
        ∧ (∀ eb, hasStatusAttr body = true → envBlockOf body = some eb →
            (envAttrKeys eb).any (fun k => k == "id") = true →
            kafkaBlockOf body = none →
            validate_resource_block body name
              = .error (.Config (missingKafkaClusterMsg name)))
        ∧ (∀ eb kb, hasStatusAttr body = true → envBlockOf body = some eb →
            (envAttrKeys eb).any (fun k => k == "id") = true →
            kafkaBlockOf body = some kb → blockHasIdAttr kb = false →
            validate_resource_block body name
              = .error (.Config (kafkaClusterIdMsg name)))
        ∧ (∀ eb kb, hasStatusAttr body = true → envBlockOf body = some eb →
            (envAttrKeys eb).any (fun k => k == "id") = true →
            kafkaBlockOf body = some kb → blockHasIdAttr kb = true →
            hasConfigSensitiveAttr body = false →
            validate_resource_block body name
              = .error (.Config (missingConfigSensitiveMsg name)))
        ∧ (∀ eb kb, hasStatusAttr body = true → envBlockOf body = some eb →
            (envAttrKeys eb).any (fun k => k == "id") = true →
            kafkaBlockOf body = some kb → blockHasIdAttr kb = true →
            hasConfigSensitiveAttr body = true →
            hasConfigNonsensitiveAttr body = false →
            validate_resource_block body name
              = .error (.Config (missingConfigNonsensitiveMsg name)))
        ∧ (∀ eb kb, hasStatusAttr body = true → envBlockOf body = some eb →
            (envAttrKeys eb).any (fun k => k == "id") = true →
            kafkaBlockOf body = some kb → blockHasIdAttr kb = true →
            hasConfigSensitiveAttr body = true →
            hasConfigNonsensitiveAttr body = true →
            validate_resource_block body name = .ok ()))
    ∧ List.Pairwise (· ≠ ·)
        [missingStatusMsg "r", missingEnvironmentMsg "r", environmentIdMsg "r" [],
         missingKafkaClusterMsg "r", kafkaClusterIdMsg "r",
         missingConfigSensitiveMsg "r", missingConfigNonsensitiveMsg "r",
         noResourcesMsg] := by
  refine ⟨?_, ?_, ?_, by decide⟩
  · intro body h
    have h0 := validateStructBlocks_skip_all (bodyBlocks body) 0 h
    simp only [validate_terraform_structure, h0, if_true]
  · intro l1 ls body rest n e h
    simp [validateStructBlocks, Block.identifier, Block.labels, Block.body, h]
  · intro body name
    refine ⟨?_, ?_, ?_, ?_, ?_, ?_, ?_, ?_⟩
    · intro h1
      simp [validate_resource_block, h1]
    · intro h1 h2
      simp [validate_resource_block, h1, h2]
    · intro eb h1 h2 h3
      simp [validate_resource_block, h1, h2, h3]
    · intro eb h1 h2 h3 h4
      simp [validate_resource_block, h1, h2, h3, h4]
    · intro eb kb h1 h2 h3 h4 h5
      simp [validate_resource_block, h1, h2, h3, h4, h5]
    · intro eb kb h1 h2 h3 h4 h5 h6
      simp [validate_resource_block, h1, h2, h3, h4, h5, h6]
    · intro eb kb h1 h2 h3 h4 h5 h6 h7
      simp [validate_resource_block, h1, h2, h3, h4, h5, h6, h7]
    · intro eb kb h1 h2 h3 h4 h5 h6 h7
      simp [validate_resource_block, h1, h2, h3, h4, h5, h6, h7]

/-- Witness for `c4_structure_checks` at concrete documents: an empty
body fails with "no resources found"; a two-block scan aborts with the
first block's `status` error. -/
theorem c4_structure_checks_witness :
    validate_terraform_structure (.ok ([] : Body)) = .error (.Config noResourcesMsg)
    ∧ validateStructBlocks
        (Block.mk "resource" ("confluent_connector" :: "r1" :: []) bodyMissingStatus
          :: [Block.mk "resource" ["confluent_connector", "r2"] bodyMissingKafkaCluster]) 0
        = .error (.Config (missingStatusMsg "r1"))
    ∧ validate_resource_block bodyMissingStatus "r1"
        = .error (.Config (missingStatusMsg "r1")) :=
  ⟨c4_structure_checks.1 [] (fun bl hbl => absurd hbl (List.not_mem_nil bl)),
   c4_structure_checks.2.1 "r1" [] bodyMissingStatus
     [Block.mk "resource" ["confluent_connector", "r2"] bodyMissingKafkaCluster] 0
     (.Config (missingStatusMsg "r1")) rfl,
   (c4_structure_checks.2.2.1 bodyMissingStatus "r1").1 rfl⟩

/-- Witness for `c9_extract_function_call`: the hypotheses hold at the
concrete call `concat()` and at a `join` with a non-array first argument. -/
theorem c9_extract_function_call_witness :
    extract_string_from_expression (Expression.funcCall "concat" []) = some "concat(...)"
    ∧ extract_string_from_expression
        (Expression.funcCall "join" [Expression.str "x"]) = some "join(...)" :=
  ⟨c9_extract_function_call.2 "concat" [] (Or.inl (by decide)),
   c9_extract_function_call.2 "join" [Expression.str "x"]
     (Or.inr (fun arr rest h => by cases h))⟩

/-- C5: the topics section of the generated non-sensitive config follows
exactly one of four mutually exclusive branches: empty topics on a Sink
definition emits `topics = "<REPLACE_WITH_TOPIC_NAME>"` and no
`topic.prefix` key; empty topics on a Source definition emits
`topic.prefix = "<REPLACE_WITH_TOPIC_PREFIX>"` and no `topics` key;
non-empty topics with `topic.prefix` among the definition's required
fields emits the `topic.prefix` placeholder and then — later in the
object — `topics` as the `join(",", [...])` call; non-empty topics
otherwise emits only the `join` expression and no `topic.prefix` key.
The lookups are over the final object, so no later insert overwrites
them. -/
theorem c5_topics_section (options : TerraformConfigOptions) :
    (options.topics.isEmpty = true →
      options.connector.connector_type = ConnectorType.Sink →
        objLookup (config_nonsensitive_obj options) (make_object_key "topics")
          = some (Expression.str "<REPLACE_WITH_TOPIC_NAME>")
        ∧ objLookup (config_nonsensitive_obj options)
            (make_object_key "topic.prefix") = none)
    ∧ (options.topics.isEmpty = true →
      options.connector.connector_type = ConnectorType.Source →
        objLookup (config_nonsensitive_obj options)
            (make_object_key "topic.prefix")
          = some (Expression.str "<REPLACE_WITH_TOPIC_PREFIX>")
        ∧ objLookup (config_nonsensitive_obj options)
            (make_object_key "topics") = none)
    ∧ (options.topics.isEmpty = false →
      options.connector.required_configs.any
          (fun config => config.name == "topic.prefix") = true →
        objLookup (config_nonsensitive_obj options) (make_object_key "topics")
          = some (joinTopicsExpr options.topics)
        ∧ objLookup (config_nonsensitive_obj options)
            (make_object_key "topic.prefix")
          = some (Expression.str "<REPLACE_WITH_TOPIC_PREFIX>")
        ∧ ∃ m1 m2 m3, config_nonsensitive_obj options
            = m1 ++ (make_object_key "topic.prefix",
                Expression.str "<REPLACE_WITH_TOPIC_PREFIX>")
              :: m2 ++ (make_object_key "topics",
                joinTopicsExpr options.topics) :: m3)
    ∧ (options.topics.isEmpty = false →
      options.connector.required_configs.any
          (fun config => config.name == "topic.prefix") = false →
        objLookup (config_nonsensitive_obj options) (make_object_key "topics")
          = some (joinTopicsExpr options.topics)
        ∧ objLookup (config_nonsensitive_obj options)
            (make_object_key "topic.prefix") = none) := by
  have hb := baseNonsensitiveEntries_keys options
  have ha := connectorSpecificEntries_keys options.connector options
  have ht := outputFormatEntries_keys options
  have hLT := config_nonsensitive_lookup_topics options (make_object_key "topics")
    (fun p hp => (hb p hp).1) (fun p hp => (ha p hp).2.1) (fun p hp => (ht p hp).1)
  have hLP := config_nonsensitive_lookup_topics options
    (make_object_key "topic.prefix")
    (fun p hp => (hb p hp).2) (fun p hp => (ha p hp).2.2) (fun p hp => (ht p hp).2)
  have htt : keyBeq (make_object_key "topics") (make_object_key "topics")
      = true := by decide
  have htp : keyBeq (make_object_key "topics") (make_object_key "topic.prefix")
      = false := by decide
  have hpt : keyBeq (make_object_key "topic.prefix") (make_object_key "topics")
      = false := by decide
  have hpp : keyBeq (make_object_key "topic.prefix")
      (make_object_key "topic.prefix") = true := by decide
  refine ⟨?_, ?_, ?_, ?_⟩
  · intro he hsink
    constructor
    · rw [hLT]
      simp [topicsEntries, he, hsink, htt]
    · rw [hLP]
      simp [topicsEntries, he, hsink, htp]
  · intro he hsrc
    constructor
    · rw [hLP]
      simp [topicsEntries, he, hsrc, hpp]
    · rw [hLT]
      simp [topicsEntries, he, hsrc, hpt]
  · intro hne hreq
    have htops : topicsEntries options
        = [(make_object_key "topic.prefix",
            Expression.str "<REPLACE_WITH_TOPIC_PREFIX>"),
           (make_object_key "topics", joinTopicsExpr options.topics)] := by
      simp [topicsEntries, hne, hreq]
    refine ⟨?_, ?_, ?_⟩
    · rw [hLT, htops]
      simp [htt, hpt]
    · rw [hLP, htops]
      simp [htp, hpp]
    · have hobj : config_nonsensitive_obj options
          = insertAll
              (insertAll (insertAll [] (baseNonsensitiveEntries options))
                (topicsEntries options))
              (connectorSpecificEntries options.connector options
                ++ outputFormatEntries options) := by
        have h1 : baseNonsensitiveEntries options ++ topicsEntries options
            ++ connectorSpecificEntries options.connector options
            ++ outputFormatEntries options
            = (baseNonsensitiveEntries options ++ topicsEntries options)
              ++ (connectorSpecificEntries options.connector options
                ++ outputFormatEntries options) := by
          rw [List.append_assoc]
        unfold config_nonsensitive_obj
        rw [h1,
          insertAll_append []
            (baseNonsensitiveEntries options ++ topicsEntries options)
            (connectorSpecificEntries options.connector options
              ++ outputFormatEntries options),
          insertAll_append [] (baseNonsensitiveEntries options)
            (topicsEntries options)]
      have hO1 : ∀ p ∈ insertAll [] (baseNonsensitiveEntries options),
          keyBeq p.1 (make_object_key "topic.prefix") = false
          ∧ keyBeq p.1 (make_object_key "topics") = false :=
        insertAll_keys_pred
          (Q := fun k => keyBeq k (make_object_key "topic.prefix") = false
            ∧ keyBeq k (make_object_key "topics") = false)
          [] (baseNonsensitiveEntries options)
          (fun p hp => absurd hp (List.not_mem_nil p))
          (fun p hp => ⟨(hb p hp).2, (hb p hp).1⟩)
      have hO1' : ∀ p ∈ insertAll [] (baseNonsensitiveEntries options)
          ++ [(make_object_key "topic.prefix",
              Expression.str "<REPLACE_WITH_TOPIC_PREFIX>")],
          keyBeq p.1 (make_object_key "topics") = false := by
        intro p hp
        rcases List.mem_append.mp hp with h | h
        · exact (hO1 p h).2
        · rw [List.mem_singleton] at h
          rw [h]
          exact hpt
      have hmid : insertAll (insertAll [] (baseNonsensitiveEntries options))
            (topicsEntries options)
          = insertAll [] (baseNonsensitiveEntries options)
            ++ [(make_object_key "topic.prefix",
                Expression.str "<REPLACE_WITH_TOPIC_PREFIX>"),
               (make_object_key "topics", joinTopicsExpr options.topics)] := by
        have hstep : ∀ (obj : Object) (k1 k2 : ObjectKey) (v1 v2 : Expression),
            insertAll obj [(k1, v1), (k2, v2)]
              = objInsert (objInsert obj k1 v1) k2 v2 := fun _ _ _ _ _ => rfl
        rw [htops, hstep]
        rw [objInsert_append _ _ _ (fun p hp => (hO1 p hp).1)]
        rw [objInsert_append _ _ _ hO1']
        rw [List.append_assoc]
        rfl
      have hrest : ∀ p ∈ connectorSpecificEntries options.connector options
          ++ outputFormatEntries options,
          keyBeq (make_object_key "topic.prefix") p.1 = false
          ∧ keyBeq (make_object_key "topics") p.1 = false := by
        intro p hp
        rcases List.mem_append.mp hp with h | h
        · exact ⟨keyBeq_false_comm _ _ (ha p h).2.2,
            keyBeq_false_comm _ _ (ha p h).2.1⟩
        · exact ⟨keyBeq_false_comm _ _ (ht p h).2,
            keyBeq_false_comm _ _ (ht p h).1⟩
      rw [hobj, hmid]
      exact insertAll_shape_pair _ _ _ _ _ _ hrest
  · intro hne hreq
    have htops : topicsEntries options
        = [(make_object_key "topics", joinTopicsExpr options.topics)] := by
      simp [topicsEntries, hne, hreq]
    constructor
    · rw [hLT, htops]
      simp [htt]
    · rw [hLP, htops]
      simp [htp]

/-- Witness for `c5_topics_section` at the CDC fixture: two topics and a
definition requiring `topic.prefix` give both keys, `topic.prefix`
placed before the `join` expression. -/
theorem c5_topics_section_witness :
    cdcTestOptions.topics.isEmpty = false
    ∧ cdcTestOptions.connector.required_configs.any
        (fun config => config.name == "topic.prefix") = true
    ∧ (objLookup (config_nonsensitive_obj cdcTestOptions)
          (make_object_key "topics")
        = some (joinTopicsExpr cdcTestOptions.topics)
      ∧ objLookup (config_nonsensitive_obj cdcTestOptions)
          (make_object_key "topic.prefix")
        = some (Expression.str "<REPLACE_WITH_TOPIC_PREFIX>")
      ∧ ∃ m1 m2 m3, config_nonsensitive_obj cdcTestOptions
          = m1 ++ (make_object_key "topic.prefix",
              Expression.str "<REPLACE_WITH_TOPIC_PREFIX>")
            :: m2 ++ (make_object_key "topics",
              joinTopicsExpr cdcTestOptions.topics) :: m3) :=
  ⟨by decide, by decide,
   (c5_topics_section cdcTestOptions).2.2.1 (by decide) (by decide)⟩

/-- Every key of the base-entry tail (`name`, `kafka.auth.mode`,
`kafka.deployment.type`) displays as something other than
`connector.class`. -/
theorem baseTail_cc (options : TerraformConfigOptions) :
    ∀ p ∈ [(make_object_key "name", Expression.str options.connector_name),
           (make_object_key "kafka.auth.mode", Expression.str "SERVICE_ACCOUNT"),
           (make_object_key "kafka.deployment.type", Expression.str "DEDICATED")],
      keyToString p.1 ≠ "connector.class" := by
  have hkeys : ∀ k ∈ [make_object_key "name", make_object_key "kafka.auth.mode",
      make_object_key "kafka.deployment.type"],
      keyToString k ≠ "connector.class" := by
    intro k hk
    fin_cases hk <;> decide
  intro p hp
  exact hkeys p.1 (List.mem_map_of_mem Prod.fst hp)

/-- Every topics-section key displays as something other than
`connector.class`. -/
theorem topicsEntries_cc (options : TerraformConfigOptions) :
    ∀ p ∈ topicsEntries options, keyToString p.1 ≠ "connector.class" := by
  have hkeys : ∀ k ∈ (topicsEntries options).map Prod.fst,
      keyToString k ≠ "connector.class" := by
    intro k hk
    unfold topicsEntries at hk
    split at hk
    · split at hk
      all_goals simp only [List.map_cons, List.map_nil] at hk
      all_goals fin_cases hk <;> decide
    · rw [List.map_append] at hk
      rcases List.mem_append.mp hk with h | h
      · split at h
        · simp only [List.map_cons, List.map_nil] at h
          fin_cases h <;> decide
        · simp only [List.map_nil] at h
          exact absurd h (List.not_mem_nil k)
      · simp only [List.map_cons, List.map_nil] at h
        fin_cases h <;> decide
  intro p hp
  exact hkeys p.1 (List.mem_map_of_mem Prod.fst hp)

/-- Every trailing-entry key (`output.data.format`, `tasks.max`) displays
as something other than `connector.class`. -/
theorem outputFormatEntries_cc (options : TerraformConfigOptions) :
    ∀ p ∈ outputFormatEntries options, keyToString p.1 ≠ "connector.class" := by
  have hkeys : ∀ k ∈ (outputFormatEntries options).map Prod.fst,
      keyToString k ≠ "connector.class" := by
    intro k hk
    simp only [outputFormatEntries, List.map_cons, List.map_nil] at hk
    fin_cases hk <;> decide
  intro p hp
  exact hkeys p.1 (List.mem_map_of_mem Prod.fst hp)

/-- Inserting entries whose keys all display as something other than
`connector.class` leaves the leading `connector.class` entry of an object
in place, and every entry behind it keeps a key displaying as something
other than `connector.class`. -/
theorem insertAll_keep_head (v0 : Expression) :
    ∀ (es : List (ObjectKey × Expression)),
      (∀ p ∈ es, keyToString p.1 ≠ "connector.class") →
      ∀ (rest : Object), (∀ p ∈ rest, keyToString p.1 ≠ "connector.class") →
      ∃ rest2, insertAll ((make_object_key "connector.class", v0) :: rest) es
        = (make_object_key "connector.class", v0) :: rest2
        ∧ ∀ p ∈ rest2, keyToString p.1 ≠ "connector.class" := by
  intro es
  induction es with
  | nil => exact fun _ rest hrest => ⟨rest, rfl, hrest⟩
  | cons e es ih =>
      intro hes rest hrest
      have hQ : keyToString e.1 ≠ "connector.class" := hes e (List.mem_cons_self _ _)
      have hne : keyBeq (make_object_key "connector.class") e.1 = false := by
        rw [keyBeq_eq_false_iff]
        intro hk
        apply hQ
        rw [← hk]
        decide
      have hstep : insertAll ((make_object_key "connector.class", v0) :: rest) (e :: es)
          = insertAll ((make_object_key "connector.class", v0)
              :: objInsert rest e.1 e.2) es := by
        show insertAll
          (objInsert ((make_object_key "connector.class", v0) :: rest) e.1 e.2) es = _
        rw [show objInsert ((make_object_key "connector.class", v0) :: rest) e.1 e.2
            = (make_object_key "connector.class", v0) :: objInsert rest e.1 e.2 by
          simp [objInsert, hne]]
      rw [hstep]
      exact ih (fun p hp => hes p (List.mem_cons_of_mem _ hp)) (objInsert rest e.1 e.2)
        (objInsert_keys_pred (Q := fun k => keyToString k ≠ "connector.class")
          rest e.1 e.2 hrest hQ)

/-- The generated non-sensitive object starts with the `connector.class`
entry carrying the definition's class, and no later entry's key displays
as `connector.class`. -/
theorem config_nonsensitive_cc_head (options : TerraformConfigOptions) :
    ∃ rest, config_nonsensitive_obj options
      = (make_object_key "connector.class",
          Expression.str options.connector.connector_class) :: rest
      ∧ ∀ p ∈ rest, keyToString p.1 ≠ "connector.class" := by
  have h0 : config_nonsensitive_obj options
      = insertAll [(make_object_key "connector.class",
          Expression.str options.connector.connector_class)]
        ([(make_object_key "name", Expression.str options.connector_name),
          (make_object_key "kafka.auth.mode", Expression.str "SERVICE_ACCOUNT"),
          (make_object_key "kafka.deployment.type", Expression.str "DEDICATED")]
          ++ topicsEntries options
          ++ connectorSpecificEntries options.connector options
          ++ outputFormatEntries options) := rfl
  rw [h0]
  apply insertAll_keep_head _ _ ?_ [] (fun p hp => absurd hp (List.not_mem_nil p))
  intro p hp
  rcases List.mem_append.mp hp with hp | hp
  · rcases List.mem_append.mp hp with hp | hp
    · rcases List.mem_append.mp hp with hp | hp
      · exact baseTail_cc options p hp
      · exact topicsEntries_cc options p hp
    · exact (connectorSpecificEntries_keys options.connector options p hp).1
  · exact outputFormatEntries_cc options p hp

/-- The entry fold of `extract_map_from_expression` keeps a leading
`connector.class` pair untouched when no remaining entry's key displays
as `connector.class`, and adds only pairs with other keys. -/
theorem extractMapFold_keep_head (cc : String) :
    ∀ (entries : Object),
      (∀ p ∈ entries, keyToString p.1 ≠ "connector.class") →
      ∀ (restm : List (String × String)),
        (∀ p ∈ restm, p.1 ≠ "connector.class") →
      ∃ restm2, entries.foldl
          (fun result p =>
            match extract_string_from_expression p.2 with
            | some str_value => mapInsert result (keyToString p.1) str_value
            | none => result)
          (("connector.class", cc) :: restm)
        = ("connector.class", cc) :: restm2
        ∧ ∀ p ∈ restm2, p.1 ≠ "connector.class" := by
  intro entries
  induction entries with
  | nil => exact fun _ restm hrestm => ⟨restm, rfl, hrestm⟩
  | cons e es ih =>
      intro hent restm hrestm
      have hQ : keyToString e.1 ≠ "connector.class" := hent e (List.mem_cons_self _ _)
      rw [List.foldl_cons]
      cases hext : extract_string_from_expression e.2 with
      | none =>
          simp only [hext]
          exact ih (fun p hp => hent p (List.mem_cons_of_mem _ hp)) restm hrestm
      | some s =>
          simp only [hext]
          have hmi : mapInsert (("connector.class", cc) :: restm) (keyToString e.1) s
              = ("connector.class", cc) :: mapInsert restm (keyToString e.1) s := by
            rw [show mapInsert (("connector.class", cc) :: restm) (keyToString e.1) s
                = if "connector.class" = keyToString e.1
                  then ("connector.class", s) :: restm
                  else ("connector.class", cc)
                    :: mapInsert restm (keyToString e.1) s from rfl]
            rw [if_neg (fun h => hQ h.symm)]
          rw [hmi]
          exact ih (fun p hp => hent p (List.mem_cons_of_mem _ hp))
            (mapInsert restm (keyToString e.1) s)
            (fun p hp => by
              rcases mem_mapInsert restm (keyToString e.1) s p hp with h | h
              · exact hrestm p h
              · rw [h]; exact hQ)

/-- Extracting a string map from an object whose head is a
`connector.class` string entry yields a map headed by the
`connector.class` pair, with no other `connector.class` key. -/
theorem extract_map_cc_head (cc : String) (rest : Object)
    (hrest : ∀ p ∈ rest, keyToString p.1 ≠ "connector.class") :
    ∃ restm, extract_map_from_expression (Expression.object
        ((make_object_key "connector.class", Expression.str cc) :: rest))
      = some (("connector.class", cc) :: restm)
      ∧ ∀ p ∈ restm, p.1 ≠ "connector.class" := by
  have h0 : extract_map_from_expression (Expression.object
        ((make_object_key "connector.class", Expression.str cc) :: rest))
      = some (rest.foldl
          (fun result p =>
            match extract_string_from_expression p.2 with
            | some str_value => mapInsert result (keyToString p.1) str_value
            | none => result)
          [("connector.class", cc)]) := rfl
  obtain ⟨restm2, hfold, hrestm2⟩ := extractMapFold_keep_head cc rest hrest []
    (fun p hp => absurd hp (List.not_mem_nil p))
  exact ⟨restm2, by rw [h0, hfold], hrestm2⟩

/-- A `config_nonsensitive` attribute step of the extraction loop, when
the attribute's map extracts, runs the register-and-insert fold from the
current class and map. -/
theorem extractAttrStep_nonsens (st : ExtractState) (entries : Object)
    (m : List (String × String))
    (hm : extract_map_from_expression (Expression.object entries) = some m) :
    extractAttrStep st ("config_nonsensitive", Expression.object entries)
      = { st with
          connector_class := (m.foldl nonsensFoldStep
            (st.connector_class, st.config_nonsensitive)).1
          config_nonsensitive := (m.foldl nonsensFoldStep
            (st.connector_class, st.config_nonsensitive)).2 } := by
  have h0 : extractAttrStep st ("config_nonsensitive", Expression.object entries)
      = (match extract_map_from_expression (Expression.object entries) with
         | some map =>
            { st with
              connector_class := (map.foldl nonsensFoldStep
                (st.connector_class, st.config_nonsensitive)).1
              config_nonsensitive := (map.foldl nonsensFoldStep
                (st.connector_class, st.config_nonsensitive)).2 }
         | none => st) := rfl
  rw [h0, hm]

/-- `generate_connector_config` written as a single dispatch on the
sensitive-object computation (the only fallible step). -/
theorem generate_eq (options : TerraformConfigOptions) :
    generate_connector_config options
      = match config_sensitive_obj options.connector.sensitive_configs with
        | .error e => .error e
        | .ok config_sensitive => .ok [Structure.block (Block.mk "resource"
            ["confluent_connector", replaceDashes options.connector_name]
            [Structure.attribute "status" (Expression.traversal "var" ["status"]),
             Structure.block (Block.mk "environment" []
               [Structure.attribute "id" (Expression.traversal "var" ["environment_id"])]),
             Structure.block (Block.mk "kafka_cluster" []
               [Structure.attribute "id"
                 (Expression.traversal "var" ["kafka_cluster", "id"])]),
             Structure.attribute "config_sensitive" (Expression.object config_sensitive),
             Structure.attribute "config_nonsensitive"
               (Expression.object (config_nonsensitive_obj options)),
             Structure.block lifecycleBlock])] := by
  unfold generate_connector_config
  cases config_sensitive_obj options.connector.sensitive_configs <;> rfl

/-- C1: for options whose connector definition carries a non-empty
`connector_class` (every catalog definition does), parsing the document
produced by a successful generation yields exactly one `ConnectorConfig`,
and its `connector_class` field equals the definition's class.  The
serialize/re-parse pair of the external `hcl` crate is modelled as the
identity on the parsed body. -/
theorem c1_roundtrip (options : TerraformConfigOptions) (body : Body)
    (hgen : generate_connector_config options = Except.ok body)
    (hcc : options.connector.connector_class ≠ "") :
    ∃ cfg, parse_terraform_configs (Except.ok body) = Except.ok [cfg]
      ∧ cfg.connector_class = options.connector.connector_class := by
  rw [generate_eq] at hgen
  split at hgen
  next e heq => exact nomatch hgen
  next config_sensitive heq =>
    injection hgen with hbody
    subst hbody
    obtain ⟨rest, hobj, hrest⟩ := config_nonsensitive_cc_head options
    obtain ⟨restm, hmap, hrestm⟩ :=
      extract_map_cc_head options.connector.connector_class rest hrest
    have hEC : (extract_config_from_block
        [Structure.attribute "status" (Expression.traversal "var" ["status"]),
         Structure.block (Block.mk "environment" []
           [Structure.attribute "id" (Expression.traversal "var" ["environment_id"])]),
         Structure.block (Block.mk "kafka_cluster" []
           [Structure.attribute "id"
             (Expression.traversal "var" ["kafka_cluster", "id"])]),
         Structure.attribute "config_sensitive" (Expression.object config_sensitive),
         Structure.attribute "config_nonsensitive"
           (Expression.object (config_nonsensitive_obj options)),
         Structure.block lifecycleBlock]).connector_class
        = options.connector.connector_class := by
      unfold extract_config_from_block
      rw [show bodyAttributes
          [Structure.attribute "status" (Expression.traversal "var" ["status"]),
           Structure.block (Block.mk "environment" []
             [Structure.attribute "id" (Expression.traversal "var" ["environment_id"])]),
           Structure.block (Block.mk "kafka_cluster" []
             [Structure.attribute "id"
               (Expression.traversal "var" ["kafka_cluster", "id"])]),
           Structure.attribute "config_sensitive" (Expression.object config_sensitive),
           Structure.attribute "config_nonsensitive"
             (Expression.object (config_nonsensitive_obj options)),
           Structure.block lifecycleBlock]
          = [("status", Expression.traversal "var" ["status"]),
             ("config_sensitive", Expression.object config_sensitive),
             ("config_nonsensitive",
               Expression.object (config_nonsensitive_obj options))] from rfl]
      rw [List.foldl_cons, List.foldl_cons, List.foldl_cons, List.foldl_nil]
      rw [show extractAttrStep ⟨"", [], []⟩
          ("status", Expression.traversal "var" ["status"]) = ⟨"", [], []⟩ from rfl]
      obtain ⟨S, h2⟩ : ∃ S, extractAttrStep ⟨"", [], []⟩
          ("config_sensitive", Expression.object config_sensitive) = ⟨"", [], S⟩ :=
        ⟨_, rfl⟩
      rw [h2, hobj]
      rw [extractAttrStep_nonsens ⟨"", [], S⟩ _ _ hmap]
      show ((("connector.class", options.connector.connector_class) :: restm).foldl
        nonsensFoldStep ("", [])).1 = options.connector.connector_class
      rw [List.foldl_cons]
      rw [show nonsensFoldStep ("", [])
          ("connector.class", options.connector.connector_class)
          = (options.connector.connector_class,
             [("connector.class", options.connector.connector_class)]) from rfl]
      exact nonsensFold_register_skip restm _ hrestm
    have hCFB : configFromBlock (Block.mk "resource"
        ["confluent_connector", replaceDashes options.connector_name]
        [Structure.attribute "status" (Expression.traversal "var" ["status"]),
         Structure.block (Block.mk "environment" []
           [Structure.attribute "id" (Expression.traversal "var" ["environment_id"])]),
         Structure.block (Block.mk "kafka_cluster" []
           [Structure.attribute "id"
             (Expression.traversal "var" ["kafka_cluster", "id"])]),
         Structure.attribute "config_sensitive" (Expression.object config_sensitive),
         Structure.attribute "config_nonsensitive"
           (Expression.object (config_nonsensitive_obj options)),
         Structure.block lifecycleBlock])
        = some ⟨replaceDashes options.connector_name,
            options.connector.connector_class,
            (extract_config_from_block
              [Structure.attribute "status" (Expression.traversal "var" ["status"]),
               Structure.block (Block.mk "environment" []
                 [Structure.attribute "id"
                   (Expression.traversal "var" ["environment_id"])]),
               Structure.block (Block.mk "kafka_cluster" []
                 [Structure.attribute "id"
                   (Expression.traversal "var" ["kafka_cluster", "id"])]),
               Structure.attribute "config_sensitive"
                 (Expression.object config_sensitive),
               Structure.attribute "config_nonsensitive"
                 (Expression.object (config_nonsensitive_obj options)),
               Structure.block lifecycleBlock]).config_nonsensitive,
            (extract_config_from_block
              [Structure.attribute "status" (Expression.traversal "var" ["status"]),
               Structure.block (Block.mk "environment" []
                 [Structure.attribute "id"
                   (Expression.traversal "var" ["environment_id"])]),
               Structure.block (Block.mk "kafka_cluster" []
                 [Structure.attribute "id"
                   (Expression.traversal "var" ["kafka_cluster", "id"])]),
               Structure.attribute "config_sensitive"
                 (Expression.object config_sensitive),
               Structure.attribute "config_nonsensitive"
                 (Expression.object (config_nonsensitive_obj options)),
               Structure.block lifecycleBlock]).config_sensitive⟩ := by
      rw [show configFromBlock (Block.mk "resource"
          ["confluent_connector", replaceDashes options.connector_name]
          [Structure.attribute "status" (Expression.traversal "var" ["status"]),
           Structure.block (Block.mk "environment" []
             [Structure.attribute "id" (Expression.traversal "var" ["environment_id"])]),
           Structure.block (Block.mk "kafka_cluster" []
             [Structure.attribute "id"
               (Expression.traversal "var" ["kafka_cluster", "id"])]),
           Structure.attribute "config_sensitive" (Expression.object config_sensitive),
           Structure.attribute "config_nonsensitive"
             (Expression.object (config_nonsensitive_obj options)),
           Structure.block lifecycleBlock])
          = (if (extract_config_from_block
              [Structure.attribute "status" (Expression.traversal "var" ["status"]),
               Structure.block (Block.mk "environment" []
                 [Structure.attribute "id"
                   (Expression.traversal "var" ["environment_id"])]),
               Structure.block (Block.mk "kafka_cluster" []
                 [Structure.attribute "id"
                   (Expression.traversal "var" ["kafka_cluster", "id"])]),
               Structure.attribute "config_sensitive"
                 (Expression.object config_sensitive),
               Structure.attribute "config_nonsensitive"
                 (Expression.object (config_nonsensitive_obj options)),
               Structure.block lifecycleBlock]).connector_class = "" then none
            else some ⟨replaceDashes options.connector_name,
              (extract_config_from_block
                [Structure.attribute "status" (Expression.traversal "var" ["status"]),
                 Structure.block (Block.mk "environment" []
                   [Structure.attribute "id"
                     (Expression.traversal "var" ["environment_id"])]),
                 Structure.block (Block.mk "kafka_cluster" []
                   [Structure.attribute "id"
                     (Expression.traversal "var" ["kafka_cluster", "id"])]),
                 Structure.attribute "config_sensitive"
                   (Expression.object config_sensitive),
                 Structure.attribute "config_nonsensitive"
                   (Expression.object (config_nonsensitive_obj options)),
                 Structure.block lifecycleBlock]).connector_class,
              (extract_config_from_block
                [Structure.attribute "status" (Expression.traversal "var" ["status"]),
                 Structure.block (Block.mk "environment" []
                   [Structure.attribute "id"
                     (Expression.traversal "var" ["environment_id"])]),
                 Structure.block (Block.mk "kafka_cluster" []
                   [Structure.attribute "id"
                     (Expression.traversal "var" ["kafka_cluster", "id"])]),
                 Structure.attribute "config_sensitive"
                   (Expression.object config_sensitive),
                 Structure.attribute "config_nonsensitive"
                   (Expression.object (config_nonsensitive_obj options)),
                 Structure.block lifecycleBlock]).config_nonsensitive,
              (extract_config_from_block
                [Structure.attribute "status" (Expression.traversal "var" ["status"]),
                 Structure.block (Block.mk "environment" []
                   [Structure.attribute "id"
                     (Expression.traversal "var" ["environment_id"])]),
                 Structure.block (Block.mk "kafka_cluster" []
                   [Structure.attribute "id"
                     (Expression.traversal "var" ["kafka_cluster", "id"])]),
                 Structure.attribute "config_sensitive"
                   (Expression.object config_sensitive),
                 Structure.attribute "config_nonsensitive"
                   (Expression.object (config_nonsensitive_obj options)),
                 Structure.block lifecycleBlock]).config_sensitive⟩) from rfl]
      rw [hEC, if_neg hcc]
    refine ⟨⟨replaceDashes options.connector_name,
      options.connector.connector_class,
      (extract_config_from_block
        [Structure.attribute "status" (Expression.traversal "var" ["status"]),
         Structure.block (Block.mk "environment" []
           [Structure.attribute "id" (Expression.traversal "var" ["environment_id"])]),
         Structure.block (Block.mk "kafka_cluster" []
           [Structure.attribute "id"
             (Expression.traversal "var" ["kafka_cluster", "id"])]),
         Structure.attribute "config_sensitive" (Expression.object config_sensitive),
         Structure.attribute "config_nonsensitive"
           (Expression.object (config_nonsensitive_obj options)),
         Structure.block lifecycleBlock]).config_nonsensitive,
      (extract_config_from_block
        [Structure.attribute "status" (Expression.traversal "var" ["status"]),
         Structure.block (Block.mk "environment" []
           [Structure.attribute "id" (Expression.traversal "var" ["environment_id"])]),
         Structure.block (Block.mk "kafka_cluster" []
           [Structure.attribute "id"
             (Expression.traversal "var" ["kafka_cluster", "id"])]),
         Structure.attribute "config_sensitive" (Expression.object config_sensitive),
         Structure.attribute "config_nonsensitive"
           (Expression.object (config_nonsensitive_obj options)),
         Structure.block lifecycleBlock]).config_sensitive⟩, ?_, rfl⟩
    rw [show parse_terraform_configs (Except.ok [Structure.block (Block.mk "resource"
        ["confluent_connector", replaceDashes options.connector_name]
        [Structure.attribute "status" (Expression.traversal "var" ["status"]),
         Structure.block (Block.mk "environment" []
           [Structure.attribute "id" (Expression.traversal "var" ["environment_id"])]),
         Structure.block (Block.mk "kafka_cluster" []
           [Structure.attribute "id"
             (Expression.traversal "var" ["kafka_cluster", "id"])]),
         Structure.attribute "config_sensitive" (Expression.object config_sensitive),
         Structure.attribute "config_nonsensitive"
           (Expression.object (config_nonsensitive_obj options)),
         Structure.block lifecycleBlock])])
        = Except.ok (List.filterMap configFromBlock [Block.mk "resource"
            ["confluent_connector", replaceDashes options.connector_name]
            [Structure.attribute "status" (Expression.traversal "var" ["status"]),
             Structure.block (Block.mk "environment" []
               [Structure.attribute "id"
                 (Expression.traversal "var" ["environment_id"])]),
             Structure.block (Block.mk "kafka_cluster" []
               [Structure.attribute "id"
                 (Expression.traversal "var" ["kafka_cluster", "id"])]),
             Structure.attribute "config_sensitive" (Expression.object config_sensitive),
             Structure.attribute "config_nonsensitive"
               (Expression.object (config_nonsensitive_obj options)),
             Structure.block lifecycleBlock]]) from rfl]
    rw [List.filterMap_cons, hCFB]
    rfl

/-- Witness for `c1_roundtrip`: the `PostgresSink` test options generate
successfully, their class is non-empty, and the parse of the generated
body yields one config with that class. -/
theorem c1_roundtrip_witness :
    generate_connector_config testConnectorOptions
      = Except.ok ((generate_connector_config testConnectorOptions).toOption.getD [])
    ∧ testConnectorOptions.connector.connector_class ≠ ""
    ∧ ∃ cfg, parse_terraform_configs
        (Except.ok ((generate_connector_config testConnectorOptions).toOption.getD []))
        = Except.ok [cfg]
      ∧ cfg.connector_class = testConnectorOptions.connector.connector_class :=
  have hg : generate_connector_config testConnectorOptions
      = Except.ok ((generate_connector_config testConnectorOptions).toOption.getD []) :=
    rfl
  have hne : testConnectorOptions.connector.connector_class ≠ "" := by decide
  ⟨hg, hne, c1_roundtrip testConnectorOptions _ hg hne⟩

end ConnectUtil
